import Mathlib

/-!
Verification development for the YouTube Audio Mode browser extension.

The definitions below are a shallow embedding of the content script that
ships with the extension (the multi-mode revision embedded in the
repository, together with the message listener of content.js).  Pure
functions of the script become Lean functions; the timer-driven quality
coordinator and enforcer become an explicit event machine over a state
record, with host behaviour (player element, DOM buttons, reported
playback quality) supplied by an environment of time-indexed functions.
JavaScript null/undefined is modelled with Option, and the scripts
falsiness tests on strings treat the empty string as falsy, exactly as
the source does.
-/

/- ===== JS string primitives: toLowerCase and includes ===== -/

/-- Model of JavaScript String.prototype.toLowerCase (per-character lowering). -/
def lowerStr (s : String) : String := s.map Char.toLower

/-- Helper: does the first list start with the second one. -/
def leadsWith : List Char → List Char → Bool
  | _, [] => true
  | [], _ :: _ => false
  | a :: as, b :: bs => a == b && leadsWith as bs

/-- Helper: does the first list contain the second as a contiguous sublist. -/
def hasSubList : List Char → List Char → Bool
  | [], pat => pat.isEmpty
  | a :: as, pat => leadsWith (a :: as) pat || hasSubList as pat

/-- Model of JavaScript s.includes(pat). -/
def strIncludes (s pat : String) : Bool := hasSubList s.toList pat.toList

/- ===== Video info and whitelist rules (getCurrentVideoInfo / checkWhitelist) ===== -/

/-- Shape of the object returned by getCurrentVideoInfo: videoId is always a
string when the object exists, videoTitle may be the empty string, channelId
and channelName may be null. -/
structure VideoInfo where
  videoId : String
  videoTitle : String
  channelId : Option String
  channelName : Option String
deriving DecidableEq, Repr

/-- A whitelist channel entry as stored in filterRules.whitelist.channels. -/
structure ChannelRule where
  id : String
  name : String
deriving DecidableEq, Repr

/-- A whitelist keyword entry as stored in filterRules.whitelist.keywords. -/
structure KeywordRule where
  keyword : String
deriving DecidableEq, Repr

/-- filterRules.whitelist; either list may be absent. -/
structure Whitelist where
  channels : Option (List ChannelRule)
  keywords : Option (List KeywordRule)
deriving DecidableEq, Repr

/-- The filterRules object; the whitelist field may be absent. -/
structure FilterRules where
  whitelist : Option Whitelist
deriving DecidableEq, Repr

/-- JS truthiness of a nullable string: null and the empty string are falsy. -/
def jsTruthyOpt : Option String → Bool
  | none => false
  | some s => s != ""

/-- Model of checkWhitelist(videoInfo, filterRules) from the content script:
guards for absent arguments and absent whitelist, then an exact-id search over
whitelist.channels (only when channelId is truthy and the list is nonempty),
then a case-insensitive substring scan of whitelist.keywords over the title
(only when the title is truthy and the list is nonempty). -/
def checkWhitelist (videoInfo : Option VideoInfo) (filterRules : Option FilterRules) : Bool :=
  match videoInfo, filterRules with
  | none, _ => false
  | _, none => false
  | some vi, some fr =>
    match fr.whitelist with
    | none => false
    | some wl =>
      let channelHit : Bool :=
        match vi.channelId with
        | none => false
        | some cid =>
          cid != "" &&
            decide (0 < (wl.channels.getD []).length) &&
            ((wl.channels.getD []).find? (fun c => c.id == cid)).isSome
      if channelHit then true
      else
        let titleLower := lowerStr vi.videoTitle
        vi.videoTitle != "" &&
          decide (0 < (wl.keywords.getD []).length) &&
          (wl.keywords.getD []).any (fun kw => strIncludes titleLower (lowerStr kw.keyword))

/-- Channel entries of a rule set, with absent layers flattened to the empty list. -/
def channelEntries (fr : FilterRules) : List ChannelRule :=
  match fr.whitelist with
  | none => []
  | some wl => wl.channels.getD []

/-- Keyword entries of a rule set, with absent layers flattened to the empty list. -/
def keywordEntries (fr : FilterRules) : List KeywordRule :=
  match fr.whitelist with
  | none => []
  | some wl => wl.keywords.getD []

/- ===== Restore target resolution (restoreQualityInternal) ===== -/

/-- The rejection test applied to each restore candidate in
restoreQualityInternal: falsy (null or empty, modelled as the empty string)
or one of the two audio-mode tiers. -/
def restoreRejected (s : String) : Bool := s == "" || s == "tiny" || s == "small"

/-- The three-step priority chain of restoreQualityInternal: session-saved
quality, then the persisted preferredQuality, then the fixed default
QUALITY.RESTORE = hd720.  Null candidates are modelled as the empty string. -/
def resolveRestoreTarget (saved preferred : String) : String :=
  let target := saved
  let target := if target == "" || target == "tiny" || target == "small" then preferred else target
  let target := if target == "" || target == "tiny" || target == "small" then "hd720" else target
  target

/-- The availability adjustment that follows resolution in
restoreQualityInternal: when the player reports a nonempty level list that
does not contain the target, fall back to auto. -/
def adjustForAvailability (target : String) (levels : List String) : String :=
  if decide (0 < levels.length) && !(levels.contains target) then "auto" else target

/-- The quality-code to menu-label map used by restoreQualityInternal
(this copy includes the auto entry). -/
def qualityToTextRestore (q : String) : String :=
  if q == "hd2160" then "2160p"
  else if q == "hd1440" then "1440p"
  else if q == "hd1080" then "1080p"
  else if q == "hd720" then "720p"
  else if q == "large" then "480p"
  else if q == "medium" then "360p"
  else if q == "small" then "240p"
  else if q == "tiny" then "144p"
  else if q == "auto" then "Auto"
  else "720p"

/-- The quality-code to menu-label map used by applyPreferredQualityInternal
(this copy has no auto entry; auto returns before the map is consulted). -/
def qualityToTextPreferred (q : String) : String :=
  if q == "hd2160" then "2160p"
  else if q == "hd1440" then "1440p"
  else if q == "hd1080" then "1080p"
  else if q == "hd720" then "720p"
  else if q == "large" then "480p"
  else if q == "medium" then "360p"
  else if q == "small" then "240p"
  else if q == "tiny" then "144p"
  else "720p"

/- ===== Filtered mode with bounded extraction retries (applyFilteredMode) ===== -/

/-- The incomplete-info guard of applyFilteredMode: no videoInfo object, or a
falsy channelId, or a falsy videoTitle. -/
def infoMissing : Option VideoInfo → Bool
  | none => true
  | some vi => !(jsTruthyOpt vi.channelId) || vi.videoTitle == ""

/-- What a run of applyFilteredMode did: gave up after the retries and
disabled, enabled on a whitelist match, re-applied quality when already
enabled, disabled on no match, or applied the preferred quality. -/
inductive FMResult where
  | disabledAfterRetries
  | enabledNow
  | reapplied
  | disabledNoMatch
  | preferredApplied
deriving DecidableEq, Repr

/-- Observable outcome of a run of applyFilteredMode: how many extraction
attempts were made, the retry delays that were scheduled between them, the
final value of audioModeEnabled, which action concluded the run, and whether
the run surfaced an error (the catch branch only logs, so no path does). -/
structure FMOut where
  attempts : Nat
  retryDelays : List Nat
  finalEnabled : Bool
  result : FMResult
  errored : Bool
deriving DecidableEq, Repr

/-- Model of applyFilteredMode(retryCount): extract is the per-attempt result
of getCurrentVideoInfo.  On incomplete info it re-schedules itself after
RETRY_DELAY = 600 while retryCount < MAX_RETRIES = 5, and once the retries are
exhausted it disables audio mode (when enabled) and stops without error.
On complete info it evaluates checkWhitelist and enables, re-applies,
disables, or applies the preferred quality. -/
def applyFilteredMode (extract : Nat → Option VideoInfo) (rules : Option FilterRules)
    (retryCount : Nat) (enabled : Bool) : FMOut :=
  let vi := extract retryCount
  if infoMissing vi then
    if h : retryCount < 5 then
      let rest := applyFilteredMode extract rules (retryCount + 1) enabled
      { rest with attempts := rest.attempts + 1, retryDelays := 600 :: rest.retryDelays }
    else
      { attempts := 1, retryDelays := [], finalEnabled := false,
        result := .disabledAfterRetries, errored := false }
  else
    if checkWhitelist vi rules then
      if enabled then
        { attempts := 1, retryDelays := [], finalEnabled := true,
          result := .reapplied, errored := false }
      else
        { attempts := 1, retryDelays := [], finalEnabled := true,
          result := .enabledNow, errored := false }
    else
      if enabled then
        { attempts := 1, retryDelays := [], finalEnabled := false,
          result := .disabledNoMatch, errored := false }
      else
        { attempts := 1, retryDelays := [], finalEnabled := false,
          result := .preferredApplied, errored := false }
termination_by 6 - retryCount

/- ===== The content.js message listener (toggle / status) ===== -/

/-- Messages handled by the content.js runtime listener that this development
models: the toggle command (sent both by the popup switch and by the global
keyboard command), the status query, and the theme update. -/
inductive PopupMsg where
  | toggleAudioMode
  | getStatus
  | updateTheme
deriving DecidableEq, Repr

/-- Model of the content.js onMessage listener restricted to the
audioModeEnabled flag: toggleAudioMode calls enableAudioMode or
disableAudioMode (whose first statement sets the flag) and answers with the
new flag; getStatus answers with the current flag; updateTheme does not touch
the flag and sends no enabled answer. -/
def handleContentMessage (enabled : Bool) : PopupMsg → Bool × Option Bool
  | .toggleAudioMode =>
    if enabled then (false, some false) else (true, some true)
  | .getStatus => (enabled, some enabled)
  | .updateTheme => (enabled, none)

/-- Process a queue of messages in arrival order (the page runs a single
event loop, so two messages 50 ms apart are handled strictly one after the
other), collecting the responses. -/
def runContentMessages (enabled : Bool) : List PopupMsg → Bool × List (Option Bool)
  | [] => (enabled, [])
  | m :: ms =>
    let (e1, r) := handleContentMessage enabled m
    let (e2, rs) := runContentMessages e1 ms
    (e2, r :: rs)

/-- Count the Disabled-to-Enabled transitions produced by a message queue. -/
def enableTransitions (enabled : Bool) : List PopupMsg → Nat
  | [] => 0
  | m :: ms =>
    let (e1, _) := handleContentMessage enabled m
    (if enabled = false ∧ e1 = true then 1 else 0) + enableTransitions e1 ms

/- ===== Quality saving on enable (enableAudioMode) ===== -/

/-- The save step of enableAudioMode: when the player reports a quality
(reported = none models an absent player or a missing getPlaybackQuality)
that is neither of the audio-mode tiers, it is stored into the session
variable savedQualityBeforeAudioMode and appended to the persisted
preferredQuality writes; otherwise nothing is saved. -/
def enableQualitySave (reported : Option String) (saved : Option String)
    (writes : List String) : Option String × List String :=
  match reported with
  | none => (saved, writes)
  | some q =>
    if q != "tiny" && q != "small" then (some q, q :: writes) else (saved, writes)

/-- An enable or disable transition; enable carries the quality the player
reports at that moment. -/
inductive EnDisEvent where
  | en (reported : Option String)
  | dis
deriving DecidableEq, Repr

/-- Fold a sequence of enable/disable transitions over the session variable
and the list of persisted preferredQuality writes.  Disabling routes through
restoreQualityInternal, which clears the session variable and deliberately
keeps the storage preference, so it performs no write. -/
def runEnableDisable (saved : Option String) (writes : List String) :
    List EnDisEvent → Option String × List String
  | [] => (saved, writes)
  | .en r :: rest =>
    let (s1, w1) := enableQualitySave r saved writes
    runEnableDisable s1 w1 rest
  | .dis :: rest => runEnableDisable none writes rest

/- ===== Theorems: restore resolution (C2) ===== -/

/-- Helper: the resolution chain in closed form. -/
lemma resolveRestoreTarget_eq (s p : String) :
    resolveRestoreTarget s p =
      if restoreRejected s then (if restoreRejected p then "hd720" else p) else s := by
  unfold resolveRestoreTarget restoreRejected
  by_cases h : (s == "" || s == "tiny" || s == "small") = true <;>
    simp [h]

/-- Helper: an accepted candidate is not an audio-mode tier. -/
lemma not_rejected_ne (p : String) (h : restoreRejected p = false) :
    p ≠ "tiny" ∧ p ≠ "small" := by
  unfold restoreRejected at h
  simp only [Bool.or_eq_false_iff, beq_eq_false_iff_ne, ne_eq] at h
  exact ⟨h.1.2, h.2⟩

/-- Claim C2: the Restore target is resolved by priority saved quality, then
persisted preferredQuality, then the fixed default hd720, with candidates
equal to tiny or small (or absent) rejected in favour of the next priority;
consequently the resolved target (before and after the availability
adjustment) is never tiny or small, and when both candidates are rejected the
target is hd720. -/
theorem restore_resolution_spec :
    (∀ s p, resolveRestoreTarget s p ≠ "tiny" ∧ resolveRestoreTarget s p ≠ "small") ∧
    (∀ s p L, adjustForAvailability (resolveRestoreTarget s p) L ≠ "tiny" ∧
        adjustForAvailability (resolveRestoreTarget s p) L ≠ "small") ∧
    (∀ s p, restoreRejected s = true → restoreRejected p = true →
        resolveRestoreTarget s p = "hd720") ∧
    (∀ s p, restoreRejected s = false → resolveRestoreTarget s p = s) ∧
    (∀ s p, restoreRejected s = true → restoreRejected p = false →
        resolveRestoreTarget s p = p) := by
  have core : ∀ s p, resolveRestoreTarget s p ≠ "tiny" ∧ resolveRestoreTarget s p ≠ "small" := by
    intro s p
    rw [resolveRestoreTarget_eq]
    by_cases hs : restoreRejected s = true
    · by_cases hp : restoreRejected p = true
      · rw [if_pos hs, if_pos hp]
        exact ⟨by decide, by decide⟩
      · have hp' : restoreRejected p = false := by simpa using hp
        rw [if_pos hs, if_neg hp]
        exact not_rejected_ne p hp'
    · have hs' : restoreRejected s = false := by simpa using hs
      rw [if_neg hs]
      exact not_rejected_ne s hs'
  refine ⟨core, ?_, ?_, ?_, ?_⟩
  · intro s p L
    unfold adjustForAvailability
    split
    · exact ⟨by decide, by decide⟩
    · exact core s p
  · intro s p hs hp
    rw [resolveRestoreTarget_eq, hs, hp]
    rfl
  · intro s p hs
    rw [resolveRestoreTarget_eq, hs]
    rfl
  · intro s p hs hp
    rw [resolveRestoreTarget_eq, hs, hp]
    rfl

/-- Witness for claim C2: both candidates rejected (saved is tiny, preferred is small)
resolve to hd720, and an accepted saved value wins. -/
theorem restore_resolution_spec_witness :
    restoreRejected "tiny" = true ∧ restoreRejected "small" = true ∧
    resolveRestoreTarget "tiny" "small" = "hd720" ∧
    restoreRejected "hd1080" = false ∧
    resolveRestoreTarget "hd1080" "small" = "hd1080" :=
  ⟨by decide, by decide,
   restore_resolution_spec.2.2.1 "tiny" "small" (by decide) (by decide),
   by decide,
   restore_resolution_spec.2.2.2.1 "hd1080" "small" (by decide)⟩

/- ===== Theorems: whitelist evaluation (C3) ===== -/

/-- Helper: the channel guard of checkWhitelist as an existential. -/
lemma channelGuard_iff (cid : String) (l : List ChannelRule) :
    (cid != "" && decide (0 < l.length) && (l.find? (fun c => c.id == cid)).isSome) = true ↔
      (cid ≠ "" ∧ ∃ c ∈ l, c.id = cid) := by
  simp only [Bool.and_eq_true, bne_iff_ne, ne_eq, decide_eq_true_eq, List.find?_isSome,
    beq_iff_eq]
  constructor
  · rintro ⟨⟨hne, -⟩, c, hc, hid⟩
    exact ⟨hne, c, hc, hid⟩
  · rintro ⟨hne, c, hc, hid⟩
    exact ⟨⟨hne, List.length_pos.mpr (List.ne_nil_of_mem hc)⟩, c, hc, hid⟩

/-- Helper: the keyword guard of checkWhitelist as an existential. -/
lemma keywordGuard_iff (t : String) (l : List KeywordRule) (f : KeywordRule → Bool) :
    (t != "" && decide (0 < l.length) && l.any f) = true ↔
      (t ≠ "" ∧ ∃ kw ∈ l, f kw = true) := by
  simp only [Bool.and_eq_true, bne_iff_ne, ne_eq, decide_eq_true_eq, List.any_eq_true]
  constructor
  · rintro ⟨⟨hne, -⟩, kw, hkw, hf⟩
    exact ⟨hne, kw, hkw, hf⟩
  · rintro ⟨hne, kw, hkw, hf⟩
    exact ⟨⟨hne, List.length_pos.mpr (List.ne_nil_of_mem hkw)⟩, kw, hkw, hf⟩

/-- Claim C3: checkWhitelist returns true exactly when the channelId equals the id
of some whitelist channel entry (requiring a truthy channelId), or some
whitelist keyword is a case-insensitive substring of a truthy videoTitle; it
returns false when either argument or the whitelist is absent, and a missing
required field contributes no match.  The function is a pure Lean definition,
so it is deterministic and side-effect-free by construction. -/
theorem checkWhitelist_spec (vi : VideoInfo) (fr : FilterRules) :
    (checkWhitelist (some vi) (some fr) = true ↔
      (∃ s, vi.channelId = some s ∧ s ≠ "" ∧ ∃ c ∈ channelEntries fr, c.id = s) ∨
      (vi.videoTitle ≠ "" ∧ ∃ kw ∈ keywordEntries fr,
        strIncludes (lowerStr vi.videoTitle) (lowerStr kw.keyword) = true)) ∧
    checkWhitelist none (some fr) = false ∧
    checkWhitelist (some vi) none = false := by
  refine ⟨?_, rfl, rfl⟩
  unfold checkWhitelist channelEntries keywordEntries
  cases hwl : fr.whitelist with
  | none => simp [hwl]
  | some wl =>
    simp only [hwl]
    cases hcid : vi.channelId with
    | none =>
      simp only [hcid, Bool.false_eq_true, if_false]
      rw [keywordGuard_iff]
      simp
    | some cid =>
      simp only [hcid]
      by_cases hch : (cid != "" &&
          decide (0 < (wl.channels.getD []).length) &&
          ((wl.channels.getD []).find? (fun c => c.id == cid)).isSome) = true
      · rw [if_pos hch]
        simp only [true_iff]
        obtain ⟨hne, c, hc, hid⟩ := (channelGuard_iff cid _).mp hch
        exact Or.inl ⟨cid, rfl, hne, c, hc, hid⟩
      · rw [if_neg hch]
        rw [keywordGuard_iff]
        constructor
        · rintro ⟨ht, kw, hkw, hinc⟩
          exact Or.inr ⟨ht, kw, hkw, hinc⟩
        · rintro (⟨s, hs, hne, c, hc, hid⟩ | h)
          · exfalso
            apply hch
            rw [channelGuard_iff]
            injection hs with hs'
            subst hs'
            exact ⟨hne, c, hc, hid⟩
          · exact h

/- ===== Theorems: filtered-mode bounded retries (C7) ===== -/

/-- Claim C7: when video info cannot be extracted on any attempt, Filtered mode
makes the initial attempt plus exactly five retries scheduled 600 ms apart,
ends with audio mode off regardless of the starting state (disabling when it
was enabled rather than staying enabled with stale state), and surfaces no
error. -/
theorem filtered_mode_retry_spec (extract : Nat → Option VideoInfo)
    (rules : Option FilterRules) (enabled : Bool)
    (h : ∀ i, infoMissing (extract i) = true) :
    applyFilteredMode extract rules 0 enabled =
      { attempts := 6, retryDelays := [600, 600, 600, 600, 600], finalEnabled := false,
        result := .disabledAfterRetries, errored := false } := by
  have h5 : applyFilteredMode extract rules 5 enabled =
      { attempts := 1, retryDelays := [], finalEnabled := false,
        result := .disabledAfterRetries, errored := false } := by
    unfold applyFilteredMode
    simp [h 5]
  have h4 : applyFilteredMode extract rules 4 enabled =
      { attempts := 2, retryDelays := [600], finalEnabled := false,
        result := .disabledAfterRetries, errored := false } := by
    unfold applyFilteredMode
    simp [h 4, h5]
  have h3 : applyFilteredMode extract rules 3 enabled =
      { attempts := 3, retryDelays := [600, 600], finalEnabled := false,
        result := .disabledAfterRetries, errored := false } := by
    unfold applyFilteredMode
    simp [h 3, h4]
  have h2 : applyFilteredMode extract rules 2 enabled =
      { attempts := 4, retryDelays := [600, 600, 600], finalEnabled := false,
        result := .disabledAfterRetries, errored := false } := by
    unfold applyFilteredMode
    simp [h 2, h3]
  have h1 : applyFilteredMode extract rules 1 enabled =
      { attempts := 5, retryDelays := [600, 600, 600, 600], finalEnabled := false,
        result := .disabledAfterRetries, errored := false } := by
    unfold applyFilteredMode
    simp [h 1, h2]
  unfold applyFilteredMode
  simp [h 0, h1]

/-- Witness for claim C7: extraction that always returns null exercises the theorem. -/
theorem filtered_mode_retry_spec_witness :
    (∀ i : Nat, infoMissing ((fun _ : Nat => (none : Option VideoInfo)) i) = true) ∧
    applyFilteredMode (fun _ : Nat => none) none 0 true =
      { attempts := 6, retryDelays := [600, 600, 600, 600, 600], finalEnabled := false,
        result := .disabledAfterRetries, errored := false } :=
  ⟨fun _ => rfl, filtered_mode_retry_spec (fun _ => none) none true (fun _ => rfl)⟩

/- ===== Theorems: toggle command (C9) ===== -/

/-- Claim C9: a toggleAudioMode message flips the engine between Disabled and
Enabled and is answered with the new enabled flag; since the page handles
messages on a single event loop, two toggle messages arriving 50 ms apart
while Disabled are processed in sequence and produce exactly one
Disabled-to-Enabled transition. -/
theorem toggle_message_spec :
    (∀ e, handleContentMessage e .toggleAudioMode = (!e, some !e)) ∧
    handleContentMessage false .toggleAudioMode = (true, some true) ∧
    handleContentMessage true .toggleAudioMode = (false, some false) ∧
    runContentMessages false [.toggleAudioMode, .toggleAudioMode] =
      (false, [some true, some false]) ∧
    enableTransitions false [.toggleAudioMode, .toggleAudioMode] = 1 :=
  ⟨fun e => by cases e <;> rfl, rfl, rfl, by decide, by decide⟩

/- ===== Theorems: enable-time quality saving (C10) ===== -/

/-- Helper: the audio-tier test used when filtering saved qualities. -/
def notAudioTier (q : String) : Bool := !(q == "tiny" || q == "small")

/-- Helper: enableQualitySave preserves the writes-list invariant. -/
lemma runEnableDisable_writes_sound (evs : List EnDisEvent) :
    ∀ saved writes, writes.all notAudioTier = true →
      ((runEnableDisable saved writes evs).2).all notAudioTier = true := by
  induction evs with
  | nil => intro saved writes hw; exact hw
  | cons e rest ih =>
    intro saved writes hw
    cases e with
    | dis => exact ih none writes hw
    | en r =>
      cases r with
      | none => exact ih saved writes hw
      | some q =>
        by_cases hq : (q != "tiny" && q != "small") = true
        · have hWrites : (q :: writes).all notAudioTier = true := by
            simp only [List.all_cons, Bool.and_eq_true]
            refine ⟨?_, hw⟩
            simp only [Bool.and_eq_true, bne_iff_ne, ne_eq] at hq
            simp [notAudioTier, hq.1, hq.2]
          simpa [runEnableDisable, enableQualitySave, hq] using
            ih (some q) (q :: writes) hWrites
        · simpa [runEnableDisable, enableQualitySave, hq] using ih saved writes hw

/-- Claim C10: on a transition to Enabled the reported quality is saved to the
session variable and written to the persisted preferredQuality only when it
is neither tiny nor small; hence over any sequence of enable/disable
transitions no write of preferredQuality ever carries an audio-mode tier. -/
theorem enable_save_spec :
    (∀ s w, enableQualitySave (some "tiny") s w = (s, w)) ∧
    (∀ s w, enableQualitySave (some "small") s w = (s, w)) ∧
    (∀ s w, enableQualitySave none s w = (s, w)) ∧
    (∀ s w q, enableQualitySave (some q) s w =
      if q != "tiny" && q != "small" then (some q, q :: w) else (s, w)) ∧
    (∀ evs : List EnDisEvent,
      ((runEnableDisable none [] evs).2).all notAudioTier = true) :=
  ⟨fun _ _ => rfl, fun _ _ => rfl, fun _ _ => rfl, fun _ _ _ => rfl,
   fun evs => runEnableDisable_writes_sound evs none [] rfl⟩

/- ===== The quality operation coordinator and enforcer machine ===== -/

/-- Operation types accepted by requestQualityOperation /
executeQualityOperation. -/
inductive QOpType where
  | set
  | restore
  | preferred
deriving DecidableEq, Repr, BEq

/-- The completion continuation threaded through an operation: the
coordinator passes its cleanup closure; callers outside the coordinator
(checkAndEnforceQuality) pass no callback. -/
inductive QCont where
  | cleanup
  | nothing
deriving DecidableEq, Repr, BEq

/-- Pending timer callbacks of the content script.  Each constructor is one
setTimeout callback: the debounce of requestQualityOperation, the re-queue of
executeQualityOperation, the player-not-ready retries of the three internal
operations, the storage-load callbacks, the 500 ms post-API verification
callbacks, and the four stages of the clickQualitySetting chain (stage 1 runs
300 ms after the settings button click, stage 2 300 ms later, stage 3 100 ms
later, stage 4 200 ms later). -/
inductive QTask where
  | debounceFire (ty : QOpType)
  | requeueFire (ty : QOpType)
  | setRetry (k : QCont)
  | preferredRetry (k : QCont)
  | restoreRetry (attempts : Nat) (k : QCont)
  | restoreLoaded (k : QCont)
  | preferredLoaded (k : QCont)
  | forceVerify (k : QCont)
  | restoreVerify (target uiText : String) (k : QCont)
  | preferredVerify (target uiText : String) (k : QCont)
  | clickStep (stage : Nat) (seqId : Nat) (target : String) (k : QCont)
deriving DecidableEq, Repr

/-- A scheduled timer: creation id (for FIFO tie-breaks), absolute fire time
in milliseconds, and the callback. -/
structure QTimer where
  id : Nat
  time : Nat
  task : QTask
deriving DecidableEq, Repr

/-- Host-page behaviour, indexed by time: whether the movie_player element
and the video element exist, the quality getPlaybackQuality reports (the
programmatic setters are best-effort and may not change it; the empty string
models null), whether the settings button, the quality menu entry, a menu
item with a given label, a nonempty menu, and an Auto entry are present, the
levels getAvailableQualityLevels reports, and the persisted preferredQuality
(empty string for unset). -/
structure QEnv where
  playerPresent : Nat → Bool
  videoPresent : Nat → Bool
  playbackQuality : Nat → String
  settingsButton : Nat → Bool
  qualityMenuItem : Nat → Bool
  menuHasTarget : Nat → String → Bool
  menuNonempty : Nat → Bool
  menuHasAuto : Nat → Bool
  availableLevels : List String
  preferredStored : String

/-- State of the embedded script: current time, the timer queue (with the
coordinator debounce timer held separately, since requestQualityOperation
keeps at most one and clears it before setting a new one), the coordinator
lock (qualityOperationInProgress / lastQualityOperationType), the
cancellation token currentQualityOperationId, the per-video idempotency flag
attached to the player, audioModeEnabled, savedQualityBeforeAudioMode, the
settings-panel suppression styles, the UI-interaction sequences begun so far
(seq id, whether their cleanup has run), a counter of menu/button clicks
performed, counters of coordinator operation begins and completion-callback
runs, and a counter of Fallback-UI entries made from forceLowestQuality. -/
structure QState where
  now : Nat
  nextId : Nat
  timers : List QTimer
  pendingDebounce : Option QTimer
  inProgress : Bool
  lastType : Option QOpType
  opId : Nat
  flag : Bool
  enabled : Bool
  savedQuality : Option String
  stylesSuppressed : Bool
  uiSeqs : List (Nat × Bool)
  clicks : Nat
  beginCount : Nat
  cleanupCount : Nat
  setFallbackCount : Nat
deriving DecidableEq, Repr

/-- The initial page state: nothing scheduled, lock free, audio mode off. -/
def initQState : QState :=
  { now := 0, nextId := 0, timers := [], pendingDebounce := none,
    inProgress := false, lastType := none, opId := 0, flag := false,
    enabled := false, savedQuality := none, stylesSuppressed := false,
    uiSeqs := [], clicks := 0, beginCount := 0, cleanupCount := 0,
    setFallbackCount := 0 }

/-- Schedule a callback at an absolute time. -/
def addTimer (task : QTask) (time : Nat) (st : QState) : QState :=
  { st with timers := ⟨st.nextId, time, task⟩ :: st.timers, nextId := st.nextId + 1 }

/-- Run a completion continuation: the coordinator cleanup closure clears
qualityOperationInProgress and lastQualityOperationType; a null onComplete
does nothing.  The cleanup counter records each run. -/
def invokeCont (k : QCont) (st : QState) : QState :=
  match k with
  | .cleanup =>
    { st with
        inProgress := false
        lastType := none
        cleanupCount := st.cleanupCount + 1 }
  | .nothing => st

/-- resetSettingsUIStyles: restore the settings panel and popup styles. -/
def resetSettingsUIStyles (st : QState) : QState :=
  { st with stylesSuppressed := false }

/-- Mark a UI-interaction sequence as having run its cleanup step. -/
def markCleaned (sid : Nat) (l : List (Nat × Bool)) : List (Nat × Bool) :=
  l.map (fun p => if p.1 == sid then (p.1, true) else p)

/-- Model of requestQualityOperation(type, debounceMs): clear any pending
debounce timer, drop the request when an operation of the same type is in
flight, otherwise schedule the debounce callback. -/
def requestQualityOperation (debounceMs : Nat) (ty : QOpType) (st : QState) : QState :=
  let st := { st with pendingDebounce := none }
  if st.inProgress && st.lastType == some ty then st
  else
    { st with
      pendingDebounce := some ⟨st.nextId, st.now + debounceMs, .debounceFire ty⟩,
      nextId := st.nextId + 1 }

/-- Model of clickQualitySetting(video, targetText, onComplete): bump the
cancellation token, then (unless the video element is gone, in which case the
catch branch restores styles and completes) suppress the settings-panel
styles and, when the settings button exists, click it, record the new
sequence, and schedule stage 1 of the chain 300 ms later; with no settings
button the operation completes at once.  The playback-position bookkeeping of
the source has no bearing on the modelled observables and is not tracked. -/
def clickQualitySetting (env : QEnv) (target : String) (k : QCont) (st : QState) : QState :=
  let st := { st with opId := st.opId + 1 }
  if !(env.videoPresent st.now) then invokeCont k (resetSettingsUIStyles st)
  else
    let st := { st with stylesSuppressed := true }
    if env.settingsButton st.now then
      let sid := st.opId
      let st := { st with clicks := st.clicks + 1, uiSeqs := (sid, false) :: st.uiSeqs }
      addTimer (.clickStep 1 sid target k) (st.now + 300) st
    else invokeCont k st

/-- Model of forceLowestQuality(player, video, onComplete): the programmatic
setters are fired (their effect, if any, lives in env.playbackQuality) and
the 500 ms verification callback is scheduled; a missing video element throws
at the first property access and the catch branch completes the operation. -/
def forceLowestQuality (env : QEnv) (k : QCont) (st : QState) : QState :=
  if env.videoPresent st.now then addTimer (.forceVerify k) (st.now + 500) st
  else invokeCont k st

/-- Model of setLowestQualityInternal(onComplete): retry after 1000 ms while
player or video is missing, else run forceLowestQuality. -/
def setLowestQualityInternal (env : QEnv) (k : QCont) (st : QState) : QState :=
  if env.playerPresent st.now && env.videoPresent st.now then
    forceLowestQuality env k st
  else addTimer (.setRetry k) (st.now + 1000) st

/-- Model of restoreQualityInternal(onComplete, attempts): with player and
video present, the storage read for preferredQuality is issued and its
callback scheduled (modelled at the same instant); otherwise retry after
100 ms while attempts remain, completing when they are exhausted. -/
def restoreQualityInternal (env : QEnv) (attempts : Nat) (k : QCont) (st : QState) : QState :=
  if env.playerPresent st.now && env.videoPresent st.now then
    addTimer (.restoreLoaded k) st.now st
  else
    match attempts with
    | 0 => invokeCont k st
    | a + 1 => addTimer (.restoreRetry a k) (st.now + 100) st

/-- Model of applyPreferredQualityInternal(onComplete): retry after 500 ms
while player or video is missing, else issue the storage read (callback
modelled at the same instant). -/
def applyPreferredQualityInternal (env : QEnv) (k : QCont) (st : QState) : QState :=
  if env.playerPresent st.now && env.videoPresent st.now then
    addTimer (.preferredLoaded k) st.now st
  else addTimer (.preferredRetry k) (st.now + 500) st

/-- Model of executeQualityOperation(type): when an operation is in flight,
schedule a re-queue of the request 500 ms later; otherwise take the lock,
record the begin, and dispatch to the internal operation with the cleanup
closure as its completion callback. -/
def executeQualityOperation (env : QEnv) (ty : QOpType) (st : QState) : QState :=
  if st.inProgress then addTimer (.requeueFire ty) (st.now + 500) st
  else
    let st := { st with
        inProgress := true
        lastType := some ty
        beginCount := st.beginCount + 1 }
    match ty with
    | .set => setLowestQualityInternal env .cleanup st
    | .restore => restoreQualityInternal env 3 .cleanup st
    | .preferred => applyPreferredQualityInternal env .cleanup st

/-- The 500 ms verification callback of forceLowestQuality: read the current
quality; when it is neither tiny nor small and this is the first attempt for
the video, set the idempotency flag and enter the Fallback-UI sequence for
the 144p label (counted by setFallbackCount); on a repeat attempt just
complete; when the quality is an audio tier, set the flag and complete. -/
def fireForceVerify (env : QEnv) (k : QCont) (st : QState) : QState :=
  let q := env.playbackQuality st.now
  if q != "tiny" && q != "small" then
    if !st.flag then
      let st := { st with flag := true, setFallbackCount := st.setFallbackCount + 1 }
      clickQualitySetting env "144p" k st
    else invokeCont k st
  else invokeCont k { st with flag := true }

/-- The storage callback of restoreQualityInternal: resolve the target by
priority, adjust for availability, clear the session-saved quality, fire the
programmatic setters, and schedule the 500 ms verification. -/
def fireRestoreLoaded (env : QEnv) (k : QCont) (st : QState) : QState :=
  let target := resolveRestoreTarget (st.savedQuality.getD "") env.preferredStored
  let uiText := qualityToTextRestore target
  let pair :=
    if decide (0 < env.availableLevels.length) && !(env.availableLevels.contains target) then
      ("auto", "Auto")
    else (target, uiText)
  let st := { st with savedQuality := none }
  addTimer (.restoreVerify pair.1 pair.2 k) (st.now + 500) st

/-- The 500 ms verification callback of restoreQualityInternal: when the
target is not auto and the read-back quality differs, run the UI click once;
otherwise complete. -/
def fireRestoreVerify (env : QEnv) (target uiText : String) (k : QCont) (st : QState) : QState :=
  let q := env.playbackQuality st.now
  if target != "auto" && q != target then clickQualitySetting env uiText k st
  else invokeCont k st

/-- The storage callback of applyPreferredQualityInternal: with no stored
preference or auto, complete at once; otherwise fire the setters and schedule
the 500 ms verification with the mapped menu label. -/
def firePreferredLoaded (env : QEnv) (k : QCont) (st : QState) : QState :=
  let q := env.preferredStored
  if q == "" || q == "auto" then invokeCont k st
  else addTimer (.preferredVerify q (qualityToTextPreferred q) k) (st.now + 500) st

/-- The 500 ms verification callback of applyPreferredQualityInternal. -/
def firePreferredVerify (env : QEnv) (target uiText : String) (k : QCont) (st : QState) : QState :=
  let q := env.playbackQuality st.now
  if q != target then clickQualitySetting env uiText k st
  else invokeCont k st

/-- One stage of the clickQualitySetting callback chain.  Stages 1 to 3 first
compare their captured operation id with the current token and, when stale,
restore the suppressed styles, run the completion callback, and stop.  A
valid stage 1 clicks the quality menu entry (or, when the menu is missing,
cleans up and completes); a valid stage 2 clicks the target label, falling
back to the last item for 144p and to Auto for 720p; a valid stage 3
dispatches the Escape key; stage 4 restores the styles and completes
unconditionally. -/
def fireClickStep (env : QEnv) (stage seqId : Nat) (target : String) (k : QCont)
    (st : QState) : QState :=
  if stage == 1 then
    if seqId != st.opId then
      invokeCont k { (resetSettingsUIStyles st) with uiSeqs := markCleaned seqId st.uiSeqs }
    else if env.qualityMenuItem st.now then
      addTimer (.clickStep 2 seqId target k) (st.now + 300)
        { st with clicks := st.clicks + 1 }
    else
      invokeCont k { (resetSettingsUIStyles st) with uiSeqs := markCleaned seqId st.uiSeqs }
  else if stage == 2 then
    if seqId != st.opId then
      invokeCont k { (resetSettingsUIStyles st) with uiSeqs := markCleaned seqId st.uiSeqs }
    else
      let st :=
        if env.menuHasTarget st.now target then { st with clicks := st.clicks + 1 }
        else if target == "144p" then
          (if env.menuNonempty st.now then { st with clicks := st.clicks + 1 } else st)
        else if target == "720p" then
          (if env.menuHasAuto st.now then { st with clicks := st.clicks + 1 } else st)
        else st
      addTimer (.clickStep 3 seqId target k) (st.now + 100) st
  else if stage == 3 then
    if seqId != st.opId then
      invokeCont k { (resetSettingsUIStyles st) with uiSeqs := markCleaned seqId st.uiSeqs }
    else addTimer (.clickStep 4 seqId target k) (st.now + 200) st
  else
    invokeCont k { (resetSettingsUIStyles st) with uiSeqs := markCleaned seqId st.uiSeqs }

/-- Model of checkAndEnforceQuality (the quality-enforcement half of the
periodic tracking tick): skip when an operation is in flight, when the player
is missing, or when audio mode is off; otherwise read the quality and, when
it is truthy and neither QUALITY.TARGET (tiny) nor QUALITY.FALLBACK (small),
call forceLowestQuality directly with no completion callback. -/
def checkAndEnforceQuality (env : QEnv) (st : QState) : QState :=
  if st.inProgress then st
  else if !(env.playerPresent st.now) || !st.enabled then st
  else
    let q := env.playbackQuality st.now
    if q != "" && q != "tiny" && q != "small" then
      forceLowestQuality env .nothing st
    else st

/-- The enable-transition slice of enableAudioMode relevant here: set the
flag audioModeEnabled, reset the per-video idempotency flag, and save the
reported quality when it is not an audio tier (the session copy; the
persisted write is modelled by enableQualitySave).  The deferred Set request
issued through setQualityWhenReady arrives as a separate request action. -/
def enableAudioModeStep (env : QEnv) (st : QState) : QState :=
  let st := { st with enabled := true, flag := false }
  if env.videoPresent st.now && env.playerPresent st.now then
    let q := env.playbackQuality st.now
    if q != "tiny" && q != "small" then { st with savedQuality := some q } else st
  else st

/-- The disable-transition slice of disableAudioMode relevant here, in source
order: clear audioModeEnabled, call restoreQuality (a Restore request with
the default debounce), delete the idempotency flag, bump the cancellation
token, and reset the settings-panel styles. -/
def disableAudioModeStep (st : QState) : QState :=
  let st := { st with enabled := false }
  let st := requestQualityOperation 300 .restore st
  let st := { st with flag := false }
  let st := { st with opId := st.opId + 1 }
  resetSettingsUIStyles st

/-- The navigation handler slice relevant here: reset the per-video
idempotency flag and cancel the pending debounce timer
(cancelPendingQualityOperations leaves an in-flight operation alone). -/
def navigateStep (st : QState) : QState :=
  { st with flag := false, pendingDebounce := none }

/-- Fire one timer callback (already removed from the queue, the clock set to
its fire time). -/
def fireTimer (env : QEnv) (task : QTask) (st : QState) : QState :=
  match task with
  | .debounceFire ty => executeQualityOperation env ty st
  | .requeueFire ty => requestQualityOperation 100 ty st
  | .setRetry k => setLowestQualityInternal env k st
  | .preferredRetry k => applyPreferredQualityInternal env k st
  | .restoreRetry attempts k => restoreQualityInternal env attempts k st
  | .restoreLoaded k => fireRestoreLoaded env k st
  | .preferredLoaded k => firePreferredLoaded env k st
  | .forceVerify k => fireForceVerify env k st
  | .restoreVerify target uiText k => fireRestoreVerify env target uiText k st
  | .preferredVerify target uiText k => firePreferredVerify env target uiText k st
  | .clickStep stage sid target k => fireClickStep env stage sid target k st

/-- External stimuli: a quality-operation request (setLowestQuality,
restoreQuality, and applyPreferredQuality all route here with the default
300 ms debounce), a periodic enforcement tick, a navigation, and the
enable/disable transitions. -/
inductive QAct where
  | req (ty : QOpType)
  | tick
  | navigate
  | enable
  | disable
deriving DecidableEq, Repr

/-- Apply one external action. -/
def applyQAct (env : QEnv) (a : QAct) (st : QState) : QState :=
  match a with
  | .req ty => requestQualityOperation 300 ty st
  | .tick => checkAndEnforceQuality env st
  | .navigate => navigateStep st
  | .enable => enableAudioModeStep env st
  | .disable => disableAudioModeStep st

/-- One step of the nondeterministic event system: an external action, firing
the pending debounce timer, or firing the i-th queued timer (the adversarial
scheduler may fire timers in any order, which covers every real timer
interleaving). -/
inductive QStep where
  | ext (a : QAct)
  | fireDeb
  | fire (i : Nat)
deriving DecidableEq, Repr

/-- Apply one step. -/
def applyQStep (env : QEnv) (s : QStep) (st : QState) : QState :=
  match s with
  | .ext a => applyQAct env a st
  | .fireDeb =>
    match st.pendingDebounce with
    | none => st
    | some tm => fireTimer env tm.task { st with pendingDebounce := none, now := tm.time }
  | .fire i =>
    match st.timers.get? i with
    | none => st
    | some tm => fireTimer env tm.task { st with timers := st.timers.eraseIdx i, now := tm.time }

/-- Run a list of steps. -/
def runQSteps (env : QEnv) (steps : List QStep) (st : QState) : QState :=
  match steps with
  | [] => st
  | s :: rest => runQSteps env rest (applyQStep env s st)

/- ===== Deterministic timed execution ===== -/

/-- Timer ordering: earlier fire time first, creation order breaking ties
(matching setTimeout semantics). -/
def timerBefore (a b : QTimer) : Bool :=
  a.time < b.time || (a.time == b.time && a.id < b.id)

/-- The due timer (fire time at most t) that fires next, among the queued
timers and the pending debounce timer. -/
def pickDue (st : QState) (t : Nat) : Option QTimer :=
  let cands :=
    ((match st.pendingDebounce with
      | some tm => [tm]
      | none => []) ++ st.timers).filter (fun tm => tm.time ≤ t)
  cands.foldl
    (fun acc tm =>
      match acc with
      | none => some tm
      | some b => if timerBefore tm b then some tm else some b)
    none

/-- Remove a timer (identified by its unique creation id) from the queue or
the debounce slot. -/
def removeTimer (st : QState) (tm : QTimer) : QState :=
  match st.pendingDebounce with
  | some d =>
    if d.id == tm.id then { st with pendingDebounce := none }
    else { st with timers := st.timers.filter (fun x => x.id != tm.id) }
  | none => { st with timers := st.timers.filter (fun x => x.id != tm.id) }

/-- Fire every due timer up to time t, earliest first (fuel bounds the number
of firings; every concrete run below fires far fewer than the supplied
fuel). -/
def advanceTo (env : QEnv) : Nat → QState → Nat → QState
  | 0, st, _ => st
  | fuel + 1, st, t =>
    match pickDue st t with
    | none => st
    | some tm =>
      advanceTo env fuel (fireTimer env tm.task { (removeTimer st tm) with now := tm.time }) t

/-- Worker for runScript: consume the remaining actions, firing due timers
before each one, then advance to the end time. -/
def runScriptGo (env : QEnv) (endTime : Nat) (st : QState) : List (Nat × QAct) → QState
  | [] => advanceTo env 50 st endTime
  | (t, a) :: rest =>
    runScriptGo env endTime (applyQAct env a { (advanceTo env 50 st t) with now := t }) rest

/-- Run a script of externally triggered actions at given (nondecreasing)
times from a start state, firing all timers that come due in between, and
finally advance to endTime. -/
def runScript (env : QEnv) (st0 : QState) (script : List (Nat × QAct)) (endTime : Nat) : QState :=
  runScriptGo env endTime st0 script

/-- Number of UI-interaction sequences that have begun and whose cleanup step
has not yet run. -/
def activeUICount (st : QState) : Nat :=
  st.uiSeqs.countP (fun p => !p.2)

/- ===== Concrete host environments for closed runs ===== -/

/-- A host page whose player and controls are all present but whose
programmatic quality setters do not take effect: getPlaybackQuality keeps
reporting hd720 (hosts may silently revert or ignore the setters, which is
precisely the situation the Fallback-UI path exists for). -/
def stubbornEnv : QEnv :=
  { playerPresent := fun _ => true, videoPresent := fun _ => true,
    playbackQuality := fun _ => "hd720", settingsButton := fun _ => true,
    qualityMenuItem := fun _ => true, menuHasTarget := fun _ _ => true,
    menuNonempty := fun _ => true, menuHasAuto := fun _ => true,
    availableLevels := [], preferredStored := "" }

/-- A host page on which the movie_player and video elements never appear. -/
def absentEnv : QEnv :=
  { playerPresent := fun _ => false, videoPresent := fun _ => false,
    playbackQuality := fun _ => "", settingsButton := fun _ => false,
    qualityMenuItem := fun _ => false, menuHasTarget := fun _ _ => false,
    menuNonempty := fun _ => false, menuHasAuto := fun _ => false,
    availableLevels := [], preferredStored := "" }

/-- stubbornEnv with setters that do work: the player reports tiny after the
set operation fires them. -/
def compliantEnv : QEnv :=
  { stubbornEnv with playbackQuality := fun _ => "tiny" }

/-- A mid-session state with audio mode enabled on the current video: the
idempotency flag was set by the first enforcement attempt, the pre-audio
quality hd1080 was remembered at enable time, and the player has since
reverted to hd720 (stubbornEnv reports exactly that). -/
def midSessionState : QState :=
  { initQState with enabled := true, flag := true, savedQuality := some "hd1080" }

/- ===== C1: overlapping UI-interaction sequences (counterexample) ===== -/

/-- Counterexample for claim C1: a periodic enforcement tick at t = 0 (audio enabled,
quality drifted to hd720) is followed by a disable at t = 100 (which requests
a Restore and deletes the idempotency flag).  The tick-initiated verification
at t = 500 then enters the Fallback-UI sequence outside the coordinator lock,
and the coordinator-run Restore enters its own Fallback-UI sequence at
t = 900 while the first sequence is still mid-chain (its cleanup runs only at
t = 1100).  At t = 900 two UI-interaction sequences are active at once even
though the coordinator began exactly one operation and no cleanup has run,
refuting the claimed mutual-exclusion invariant. -/
theorem ui_mutex_counterexample :
    activeUICount (runScript stubbornEnv midSessionState
      [(0, .tick), (100, .disable)] 900) = 2 ∧
    (runScript stubbornEnv midSessionState
      [(0, .tick), (100, .disable)] 900).beginCount = 1 ∧
    (runScript stubbornEnv midSessionState
      [(0, .tick), (100, .disable)] 900).cleanupCount = 0 := by
  refine ⟨?_, ?_, ?_⟩ <;> decide

/- ===== C6: Fallback-UI twice on one video (counterexample) ===== -/

/-- Counterexample for claim C6: on a single video (the script contains no navigation),
enabling audio mode, letting the enforcement fall back to the UI once, then
disabling and re-enabling runs the Fallback-UI a second time, because
enableAudioMode and disableAudioMode also reset the per-video idempotency
flag (the source comments call this out as deliberate).  So the sequence is
not limited to once per video between navigations. -/
theorem fallback_once_counterexample :
    (runScript stubbornEnv initQState
      [(0, .enable), (0, .req .set), (2000, .disable),
       (3000, .enable), (3000, .req .set)] 3800).setFallbackCount = 2 ∧
    ([(0, QAct.enable), (0, QAct.req .set), (2000, QAct.disable),
      (3000, QAct.enable), (3000, QAct.req .set)].all
        (fun p => p.2 != QAct.navigate)) = true := by
  refine ⟨?_, ?_⟩ <;> decide

/- ===== C8: in-flight flag held forever (counterexample) ===== -/

/-- Counterexample for claim C8: a Set operation begun while the player element never
appears retries setLowestQualityInternal every 1000 ms without ever invoking
the completion callback: ten seconds and twenty seconds in, the in-flight
flag is still held, no cleanup has run, and the only pending timer is the
next retry, refuting the claim that the player-absent branch invokes the
completion callback. -/
theorem completion_counterexample :
    ((runScript absentEnv initQState [(0, .req .set)] 10000).inProgress = true ∧
     (runScript absentEnv initQState [(0, .req .set)] 10000).cleanupCount = 0 ∧
     (runScript absentEnv initQState [(0, .req .set)] 10000).beginCount = 1 ∧
     (runScript absentEnv initQState [(0, .req .set)] 10000).timers.length = 1) ∧
    ((runScript absentEnv initQState [(0, .req .set)] 20000).inProgress = true ∧
     (runScript absentEnv initQState [(0, .req .set)] 20000).cleanupCount = 0) := by
  refine ⟨⟨?_, ?_, ?_, ?_⟩, ?_, ?_⟩ <;> decide

/- ===== C5: stale callbacks perform cleanup only ===== -/

/-- Claim C5: when the global cancellation token has been bumped above the
operation id a clickQualitySetting chain captured, each of its id-checked
pending callbacks (stages 1 to 3) only restores the suppressed
settings-panel styles, marks the sequence cleaned, and runs its completion
callback: the state equations show no click is performed, no further step is
scheduled, and nothing else changes.  The final stage performs this cleanup
unconditionally.  Consequently the clicks counter and timer queue are
untouched and the in-flight lock of a coordinator-owned sequence is
released. -/
theorem stale_callback_spec (env : QEnv) (st : QState) (sid d : Nat)
    (target : String) (k : QCont) :
    (fireClickStep env 1 sid target k { st with opId := sid + d + 1 } =
      invokeCont k { (resetSettingsUIStyles { st with opId := sid + d + 1 }) with
        uiSeqs := markCleaned sid st.uiSeqs }) ∧
    (fireClickStep env 2 sid target k { st with opId := sid + d + 1 } =
      invokeCont k { (resetSettingsUIStyles { st with opId := sid + d + 1 }) with
        uiSeqs := markCleaned sid st.uiSeqs }) ∧
    (fireClickStep env 3 sid target k { st with opId := sid + d + 1 } =
      invokeCont k { (resetSettingsUIStyles { st with opId := sid + d + 1 }) with
        uiSeqs := markCleaned sid st.uiSeqs }) ∧
    (fireClickStep env 4 sid target k st =
      invokeCont k { (resetSettingsUIStyles st) with
        uiSeqs := markCleaned sid st.uiSeqs }) ∧
    (fireClickStep env 1 sid target k { st with opId := sid + d + 1 }).clicks = st.clicks ∧
    (fireClickStep env 1 sid target k { st with opId := sid + d + 1 }).timers = st.timers ∧
    (fireClickStep env 1 sid target k { st with opId := sid + d + 1 }).stylesSuppressed
      = false ∧
    (fireClickStep env 1 sid target k
        { st with opId := sid + d + 1 }).cleanupCount
      = st.cleanupCount + (if k == .cleanup then 1 else 0) := by
  have hne : (sid != sid + d + 1) = true := by
    simp only [bne_iff_ne, ne_eq]
    omega
  have h1 : fireClickStep env 1 sid target k { st with opId := sid + d + 1 } =
      invokeCont k { (resetSettingsUIStyles { st with opId := sid + d + 1 }) with
        uiSeqs := markCleaned sid st.uiSeqs } := by
    simp [fireClickStep, hne]
  refine ⟨h1, by simp [fireClickStep, hne], by simp [fireClickStep, hne], rfl, ?_, ?_, ?_, ?_⟩ <;>
    rw [h1] <;> cases k <;> simp [invokeCont, resetSettingsUIStyles] <;> decide

/- ===== Coordinator begin/cleanup alternation invariant ===== -/

/-- A timer carries the coordinator cleanup closure when its continuation is
the cleanup continuation. -/
def isCarrier : QTask → Bool
  | .debounceFire _ => false
  | .requeueFire _ => false
  | .setRetry k => k == .cleanup
  | .preferredRetry k => k == .cleanup
  | .restoreRetry _ k => k == .cleanup
  | .restoreLoaded k => k == .cleanup
  | .preferredLoaded k => k == .cleanup
  | .forceVerify k => k == .cleanup
  | .restoreVerify _ _ k => k == .cleanup
  | .preferredVerify _ _ k => k == .cleanup
  | .clickStep _ _ _ k => k == .cleanup

/-- Number of queued timers carrying the cleanup closure. -/
def carriers (l : List QTimer) : Nat := l.countP (fun tm => isCarrier tm.task)


/-- The pending debounce slot never holds the cleanup continuation:
requestQualityOperation is the only writer and it stores debounce callbacks
only. -/
def PendOk (st : QState) : Prop :=
  ∀ tm, st.pendingDebounce = some tm → isCarrier tm.task = false

/-- The coordinator invariant: with the lock held there is exactly one more
begin than cleanup runs and at most one queued carrier of the cleanup
closure; with the lock free the counts agree and no carrier is queued; and
the debounce slot holds no carrier. -/
def CoordInv (st : QState) : Prop :=
  (st.inProgress = true → st.beginCount = st.cleanupCount + 1 ∧ carriers st.timers ≤ 1) ∧
  (st.inProgress = false → st.beginCount = st.cleanupCount ∧ carriers st.timers = 0) ∧
  PendOk st

/-- The context a fired continuation runs in: the cleanup closure runs with
the lock held, the counts off by one, and no other carrier queued; a null
continuation runs in any state satisfying the invariant. -/
def ContCtx (st : QState) : QCont → Prop
  | .cleanup => st.inProgress = true ∧ st.beginCount = st.cleanupCount + 1 ∧
      carriers st.timers = 0 ∧ PendOk st
  | .nothing => CoordInv st

lemma carriers_addTimer (task : QTask) (time : Nat) (st : QState) :
    carriers (addTimer task time st).timers =
      carriers st.timers + (if isCarrier task then 1 else 0) := by
  simp [addTimer, carriers, List.countP_cons]

lemma inv_invoke {st : QState} {k : QCont} (h : ContCtx st k) :
    CoordInv (invokeCont k st) := by
  cases k with
  | cleanup =>
    obtain ⟨h1, h2, h3, h4⟩ := h
    refine ⟨?_, ?_, ?_⟩
    · intro hip
      simp [invokeCont] at hip
    · intro _
      simp only [invokeCont]
      exact ⟨by omega, h3⟩
    · intro tm htm
      exact h4 tm htm
  | nothing => exact h

lemma inv_sched {st : QState} {k : QCont} (task : QTask) (time : Nat)
    (hcar : isCarrier task = (k == .cleanup)) (h : ContCtx st k) :
    CoordInv (addTimer task time st) := by
  cases k with
  | cleanup =>
    obtain ⟨h1, h2, h3, h4⟩ := h
    have hcar' : isCarrier task = true := by simpa using hcar
    refine ⟨?_, ?_, ?_⟩
    · intro _
      refine ⟨h2, ?_⟩
      rw [carriers_addTimer, hcar', h3]
      simp
    · intro hip
      rw [show (addTimer task time st).inProgress = st.inProgress from rfl] at hip
      rw [h1] at hip
      cases hip
    · intro tm htm
      exact h4 tm htm
  | nothing =>
    have hcar' : isCarrier task = false := by simpa using hcar
    obtain ⟨h1, h2, h3⟩ := h
    refine ⟨?_, ?_, ?_⟩
    · intro hip
      obtain ⟨ha, hb⟩ := h1 hip
      refine ⟨ha, ?_⟩
      rw [carriers_addTimer, hcar']
      simpa using hb
    · intro hip
      obtain ⟨ha, hb⟩ := h2 hip
      refine ⟨ha, ?_⟩
      rw [carriers_addTimer, hcar']
      simp [hb]
    · intro tm htm
      exact h3 tm htm

/-- ContCtx only constrains the lock, the counters, the timers, and the
debounce slot, so it transports across updates of the other fields. -/
lemma contCtx_update {st st' : QState} {k : QCont}
    (hip : st'.inProgress = st.inProgress)
    (hbc : st'.beginCount = st.beginCount)
    (hcc : st'.cleanupCount = st.cleanupCount)
    (htm : st'.timers = st.timers)
    (hpd : st'.pendingDebounce = st.pendingDebounce)
    (h : ContCtx st k) : ContCtx st' k := by
  cases k with
  | cleanup =>
    obtain ⟨h1, h2, h3, h4⟩ := h
    refine ⟨by rw [hip]; exact h1, by rw [hbc, hcc]; exact h2, by rw [htm]; exact h3, ?_⟩
    intro tm htm'
    exact h4 tm (by rw [← hpd]; exact htm')
  | nothing =>
    obtain ⟨h1, h2, h3⟩ := h
    refine ⟨?_, ?_, ?_⟩
    · intro hp
      rw [hip] at hp
      obtain ⟨ha, hb⟩ := h1 hp
      exact ⟨by rw [hbc, hcc]; exact ha, by rw [htm]; exact hb⟩
    · intro hp
      rw [hip] at hp
      obtain ⟨ha, hb⟩ := h2 hp
      exact ⟨by rw [hbc, hcc]; exact ha, by rw [htm]; exact hb⟩
    · intro tm htm'
      exact h3 tm (by rw [← hpd]; exact htm')

/-- CoordInv transport across updates of unrelated fields. -/
lemma coordInv_update {st st' : QState}
    (hip : st'.inProgress = st.inProgress)
    (hbc : st'.beginCount = st.beginCount)
    (hcc : st'.cleanupCount = st.cleanupCount)
    (htm : st'.timers = st.timers)
    (hpd : st'.pendingDebounce = st.pendingDebounce)
    (h : CoordInv st) : CoordInv st' :=
  @contCtx_update st st' .nothing hip hbc hcc htm hpd h

lemma inv_click {env : QEnv} {st : QState} {k : QCont} (target : String)
    (h : ContCtx st k) : CoordInv (clickQualitySetting env target k st) := by
  unfold clickQualitySetting
  dsimp only
  split
  · exact inv_invoke (contCtx_update rfl rfl rfl rfl rfl h)
  · split
    · refine inv_sched _ _ ?_ (contCtx_update rfl rfl rfl rfl rfl h)
      cases k <;> rfl
    · exact inv_invoke (contCtx_update rfl rfl rfl rfl rfl h)

lemma inv_force {env : QEnv} {st : QState} {k : QCont} (h : ContCtx st k) :
    CoordInv (forceLowestQuality env k st) := by
  unfold forceLowestQuality
  split
  · refine inv_sched _ _ ?_ h
    cases k <;> rfl
  · exact inv_invoke h

lemma inv_setInternal {env : QEnv} {st : QState} {k : QCont} (h : ContCtx st k) :
    CoordInv (setLowestQualityInternal env k st) := by
  unfold setLowestQualityInternal
  split
  · exact inv_force h
  · refine inv_sched _ _ ?_ h
    cases k <;> rfl

lemma inv_restoreInternal {env : QEnv} {st : QState} {k : QCont} (attempts : Nat)
    (h : ContCtx st k) : CoordInv (restoreQualityInternal env attempts k st) := by
  unfold restoreQualityInternal
  split
  · refine inv_sched _ _ ?_ h
    cases k <;> rfl
  · split
    · exact inv_invoke h
    · refine inv_sched _ _ ?_ h
      cases k <;> rfl

lemma inv_preferredInternal {env : QEnv} {st : QState} {k : QCont} (h : ContCtx st k) :
    CoordInv (applyPreferredQualityInternal env k st) := by
  unfold applyPreferredQualityInternal
  split
  · refine inv_sched _ _ ?_ h
    cases k <;> rfl
  · refine inv_sched _ _ ?_ h
    cases k <;> rfl

lemma inv_request {st : QState} (d : Nat) (ty : QOpType) (h : CoordInv st) :
    CoordInv (requestQualityOperation d ty st) := by
  unfold requestQualityOperation
  dsimp only
  obtain ⟨h1, h2, h3⟩ := h
  split
  · exact ⟨h1, h2, fun tm htm => by cases htm⟩
  · refine ⟨h1, h2, ?_⟩
    intro tm htm
    simp only [Option.some.injEq] at htm
    rw [← htm]
    rfl

lemma inv_execute {env : QEnv} {st : QState} (ty : QOpType) (h : CoordInv st) :
    CoordInv (executeQualityOperation env ty st) := by
  unfold executeQualityOperation
  split
  · exact @inv_sched _ .nothing _ _ rfl h
  · rename_i hip
    have hip' : st.inProgress = false := by
      cases hx : st.inProgress
      · rfl
      · exact absurd hx hip
    obtain ⟨-, h2, h3⟩ := h
    obtain ⟨ha, hb⟩ := h2 hip'
    have hctx : ContCtx
        { st with
            inProgress := true
            lastType := some ty
            beginCount := st.beginCount + 1 } .cleanup := by
      refine ⟨rfl, ?_, ?_, ?_⟩
      · simpa using ha
      · simpa [carriers] using hb
      · intro tm htm
        exact h3 tm htm
    cases ty with
    | set => exact inv_setInternal hctx
    | restore => exact inv_restoreInternal _ hctx
    | preferred => exact inv_preferredInternal hctx

lemma inv_fireForceVerify {env : QEnv} {st : QState} {k : QCont} (h : ContCtx st k) :
    CoordInv (fireForceVerify env k st) := by
  unfold fireForceVerify
  dsimp only
  split
  · split
    · exact inv_click _ (contCtx_update rfl rfl rfl rfl rfl h)
    · exact inv_invoke h
  · exact inv_invoke (contCtx_update rfl rfl rfl rfl rfl h)

lemma inv_fireRestoreLoaded {env : QEnv} {st : QState} {k : QCont} (h : ContCtx st k) :
    CoordInv (fireRestoreLoaded env k st) := by
  unfold fireRestoreLoaded
  dsimp only
  refine inv_sched _ _ ?_ (contCtx_update rfl rfl rfl rfl rfl h)
  cases k <;> rfl

lemma inv_fireRestoreVerify {env : QEnv} {st : QState} {k : QCont}
    (target uiText : String) (h : ContCtx st k) :
    CoordInv (fireRestoreVerify env target uiText k st) := by
  unfold fireRestoreVerify
  dsimp only
  split
  · exact inv_click _ h
  · exact inv_invoke h

lemma inv_firePreferredLoaded {env : QEnv} {st : QState} {k : QCont} (h : ContCtx st k) :
    CoordInv (firePreferredLoaded env k st) := by
  unfold firePreferredLoaded
  dsimp only
  split
  · exact inv_invoke h
  · refine inv_sched _ _ ?_ h
    cases k <;> rfl

lemma inv_firePreferredVerify {env : QEnv} {st : QState} {k : QCont}
    (target uiText : String) (h : ContCtx st k) :
    CoordInv (firePreferredVerify env target uiText k st) := by
  unfold firePreferredVerify
  dsimp only
  split
  · exact inv_click _ h
  · exact inv_invoke h

lemma inv_fireClickStep {env : QEnv} {st : QState} {k : QCont}
    (stage sid : Nat) (target : String) (h : ContCtx st k) :
    CoordInv (fireClickStep env stage sid target k st) := by
  unfold fireClickStep
  split
  · split
    · exact inv_invoke (contCtx_update rfl rfl rfl rfl rfl h)
    · split
      · refine inv_sched _ _ ?_ (contCtx_update rfl rfl rfl rfl rfl h)
        cases k <;> rfl
      · exact inv_invoke (contCtx_update rfl rfl rfl rfl rfl h)
  · split
    · split
      · exact inv_invoke (contCtx_update rfl rfl rfl rfl rfl h)
      · refine @inv_sched _ k _ _ ?_ ?_
        · cases k <;> rfl
        · dsimp only
          split
          · exact contCtx_update rfl rfl rfl rfl rfl h
          · split
            · split
              · exact contCtx_update rfl rfl rfl rfl rfl h
              · exact contCtx_update rfl rfl rfl rfl rfl h
            · split
              · split
                · exact contCtx_update rfl rfl rfl rfl rfl h
                · exact contCtx_update rfl rfl rfl rfl rfl h
              · exact contCtx_update rfl rfl rfl rfl rfl h
    · split
      · split
        · exact inv_invoke (contCtx_update rfl rfl rfl rfl rfl h)
        · refine inv_sched _ _ ?_ (contCtx_update rfl rfl rfl rfl rfl h)
          cases k <;> rfl
      · exact inv_invoke (contCtx_update rfl rfl rfl rfl rfl h)

lemma inv_check {env : QEnv} {st : QState} (h : CoordInv st) :
    CoordInv (checkAndEnforceQuality env st) := by
  unfold checkAndEnforceQuality
  dsimp only
  split
  · exact h
  · split
    · exact h
    · split
      · exact @inv_force _ _ .nothing h
      · exact h

lemma inv_enable {env : QEnv} {st : QState} (h : CoordInv st) :
    CoordInv (enableAudioModeStep env st) := by
  unfold enableAudioModeStep
  dsimp only
  split
  · split
    · exact coordInv_update rfl rfl rfl rfl rfl h
    · exact coordInv_update rfl rfl rfl rfl rfl h
  · exact coordInv_update rfl rfl rfl rfl rfl h

lemma inv_disable {st : QState} (h : CoordInv st) :
    CoordInv (disableAudioModeStep st) := by
  unfold disableAudioModeStep
  dsimp only
  exact coordInv_update rfl rfl rfl rfl rfl
    (inv_request 300 .restore (coordInv_update rfl rfl rfl rfl rfl h))

lemma inv_navigate {st : QState} (h : CoordInv st) : CoordInv (navigateStep st) := by
  obtain ⟨h1, h2, h3⟩ := h
  exact ⟨h1, h2, fun tm htm => by cases htm⟩

lemma inv_act {env : QEnv} {st : QState} (a : QAct) (h : CoordInv st) :
    CoordInv (applyQAct env a st) := by
  cases a with
  | req ty => exact inv_request 300 ty h
  | tick => exact inv_check h
  | navigate => exact inv_navigate h
  | enable => exact inv_enable h
  | disable => exact inv_disable h

lemma inv_fireTimer {env : QEnv} {st : QState} (task : QTask)
    (h : if isCarrier task then
        (st.inProgress = true ∧ st.beginCount = st.cleanupCount + 1 ∧
          carriers st.timers = 0 ∧ PendOk st)
      else CoordInv st) :
    CoordInv (fireTimer env task st) := by
  cases task with
  | debounceFire ty => exact inv_execute ty (by simpa [isCarrier] using h)
  | requeueFire ty => exact inv_request 100 ty (by simpa [isCarrier] using h)
  | setRetry k =>
    refine @inv_setInternal env st k ?_
    cases k
    · simpa [isCarrier] using h
    · simpa [isCarrier, ContCtx] using h
  | preferredRetry k =>
    refine @inv_preferredInternal env st k ?_
    cases k
    · simpa [isCarrier] using h
    · simpa [isCarrier, ContCtx] using h
  | restoreRetry attempts k =>
    refine @inv_restoreInternal env st k attempts ?_
    cases k
    · simpa [isCarrier] using h
    · simpa [isCarrier, ContCtx] using h
  | restoreLoaded k =>
    refine @inv_fireRestoreLoaded env st k ?_
    cases k
    · simpa [isCarrier] using h
    · simpa [isCarrier, ContCtx] using h
  | preferredLoaded k =>
    refine @inv_firePreferredLoaded env st k ?_
    cases k
    · simpa [isCarrier] using h
    · simpa [isCarrier, ContCtx] using h
  | forceVerify k =>
    refine @inv_fireForceVerify env st k ?_
    cases k
    · simpa [isCarrier] using h
    · simpa [isCarrier, ContCtx] using h
  | restoreVerify target uiText k =>
    refine @inv_fireRestoreVerify env st k target uiText ?_
    cases k
    · simpa [isCarrier] using h
    · simpa [isCarrier, ContCtx] using h
  | preferredVerify target uiText k =>
    refine @inv_firePreferredVerify env st k target uiText ?_
    cases k
    · simpa [isCarrier] using h
    · simpa [isCarrier, ContCtx] using h
  | clickStep stage sid target k =>
    refine @inv_fireClickStep env st k stage sid target ?_
    cases k
    · simpa [isCarrier] using h
    · simpa [isCarrier, ContCtx] using h

/-- Helper: removing the i-th element removes exactly its contribution to a
countP. -/
lemma countP_eraseIdx_get? {α : Type} (p : α → Bool) :
    ∀ (l : List α) (i : Nat) (a : α), l.get? i = some a →
      l.countP p = (l.eraseIdx i).countP p + (if p a then 1 else 0) := by
  intro l
  induction l with
  | nil =>
    intro i a h
    cases h
  | cons x xs ih =>
    intro i a h
    cases i with
    | zero =>
      simp only [List.get?] at h
      cases h
      simp [List.eraseIdx, List.countP_cons]
    | succ n =>
      simp only [List.get?] at h
      have hx := ih n a h
      simp only [List.eraseIdx, List.countP_cons]
      omega

lemma inv_step {env : QEnv} {st : QState} (s : QStep) (h : CoordInv st) :
    CoordInv (applyQStep env s st) := by
  cases s with
  | ext a => exact inv_act a h
  | fireDeb =>
    unfold applyQStep
    dsimp only
    cases hd : st.pendingDebounce with
    | none => exact h
    | some tm =>
      dsimp only
      obtain ⟨h1, h2, h3⟩ := h
      have hnc : isCarrier tm.task = false := h3 tm hd
      refine inv_fireTimer tm.task ?_
      rw [hnc]
      simp only [Bool.false_eq_true, if_false]
      refine ⟨h1, h2, fun x hx => by cases hx⟩
  | fire i =>
    unfold applyQStep
    dsimp only
    cases hg : st.timers.get? i with
    | none => exact h
    | some tm =>
      dsimp only
      have hcount := countP_eraseIdx_get? (fun x => isCarrier x.task) st.timers i tm hg
      obtain ⟨h1, h2, h3⟩ := h
      refine inv_fireTimer tm.task ?_
      by_cases hc : isCarrier tm.task = true
      · rw [hc]
        simp only [if_true]
        have hip : st.inProgress = true := by
          cases hx : st.inProgress
          · obtain ⟨-, hz⟩ := h2 hx
            rw [show carriers st.timers = st.timers.countP (fun x => isCarrier x.task) from rfl]
              at hz
            rw [hcount] at hz
            simp [hc] at hz
          · rfl
        obtain ⟨ha, hb⟩ := h1 hip
        refine ⟨hip, ha, ?_, fun x hx => h3 x hx⟩
        show (st.timers.eraseIdx i).countP (fun x => isCarrier x.task) = 0
        rw [show carriers st.timers = st.timers.countP (fun x => isCarrier x.task) from rfl]
          at hb
        rw [hcount] at hb
        have hone : (if (fun x => isCarrier x.task) tm = true then 1 else 0) = 1 := by
          simp [hc]
        rw [hone] at hb
        omega
      · have hc' : isCarrier tm.task = false := by simpa using hc
        rw [hc']
        simp only [Bool.false_eq_true, if_false]
        have hcar : carriers (st.timers.eraseIdx i) = carriers st.timers := by
          show (st.timers.eraseIdx i).countP (fun x => isCarrier x.task) =
            st.timers.countP (fun x => isCarrier x.task)
          rw [hcount]
          simp [hc']
        refine ⟨?_, ?_, fun x hx => h3 x hx⟩
        · intro hip
          obtain ⟨ha, hb⟩ := h1 hip
          exact ⟨ha, by rw [show carriers ({ st with
            timers := st.timers.eraseIdx i, now := tm.time } : QState).timers =
              carriers (st.timers.eraseIdx i) from rfl, hcar]; exact hb⟩
        · intro hip
          obtain ⟨ha, hb⟩ := h2 hip
          exact ⟨ha, by rw [show carriers ({ st with
            timers := st.timers.eraseIdx i, now := tm.time } : QState).timers =
              carriers (st.timers.eraseIdx i) from rfl, hcar]; exact hb⟩

/-- The invariant holds initially and along every run of the event system. -/
lemma inv_runQSteps (env : QEnv) (steps : List QStep) :
    ∀ st, CoordInv st → CoordInv (runQSteps env steps st) := by
  induction steps with
  | nil => intro st h; exact h
  | cons s rest ih =>
    intro st h
    exact ih _ (inv_step s h)

lemma inv_init : CoordInv initQState := by
  refine ⟨?_, ?_, ?_⟩
  · intro h
    simp [initQState] at h
  · intro _
    exact ⟨rfl, rfl⟩
  · intro tm htm
    cases htm

/- ===== C1 amended: coordinator-level mutual exclusion ===== -/

/-- Claim C1 as amended: coordinator operations are mutually exclusive.  Along every
interleaving of external stimuli and timer firings from the initial state,
completion-callback runs never outnumber coordinator begins and begins never
get more than one ahead of completions (so a second coordinator operation
never begins before the previous operation and its completion callback have
finished), and a dispatch reaching executeQualityOperation while an operation
is in flight begins nothing: it only schedules a 500 ms re-queue of the
request.  (The full original claim fails because the periodic check invokes
the enforcer outside this lock, so a check-initiated UI sequence can overlap
a coordinator one; see the C1 counterexample above.) -/
theorem coordinator_mutex_spec :
    (∀ (env : QEnv) (steps : List QStep),
      (runQSteps env steps initQState).cleanupCount ≤
          (runQSteps env steps initQState).beginCount ∧
      (runQSteps env steps initQState).beginCount ≤
          (runQSteps env steps initQState).cleanupCount + 1) ∧
    (∀ (env : QEnv) (ty : QOpType) (st : QState),
      (executeQualityOperation env ty { st with inProgress := true }).beginCount
          = st.beginCount ∧
      (executeQualityOperation env ty { st with inProgress := true }).timers
          = ⟨st.nextId, st.now + 500, .requeueFire ty⟩ :: st.timers ∧
      (executeQualityOperation env ty { st with inProgress := true }).inProgress
          = true) := by
  constructor
  · intro env steps
    obtain ⟨h1, h2, -⟩ := inv_runQSteps env steps initQState inv_init
    cases hip : (runQSteps env steps initQState).inProgress
    · obtain ⟨ha, -⟩ := h2 hip
      omega
    · obtain ⟨ha, -⟩ := h1 hip
      omega
  · intro env ty st
    exact ⟨rfl, rfl, rfl⟩

/- ===== C8 amended: completion behaviour of the branches ===== -/

/-- Claim C8 as amended: completion-callback runs never outnumber coordinator begins
(each begun operation completes at most once), and the terminating branches
do complete exactly once: a Restore begun with the player element absent
exhausts its three 100 ms retries and then invokes its completion callback; a
Set whose programmatic setters succeed completes after verification; and a
Set that goes through the full Fallback-UI chain completes at the final
cleanup stage.  However the player-absent branches of Set (and Preferred)
retry indefinitely instead of completing, so the in-flight flag stays held
while the player never appears, as the C8 counterexample above shows. -/
theorem completion_spec_amended :
    (∀ (env : QEnv) (steps : List QStep),
      (runQSteps env steps initQState).cleanupCount ≤
        (runQSteps env steps initQState).beginCount) ∧
    ((runScript absentEnv initQState [(0, .req .restore)] 1000).cleanupCount = 1 ∧
     (runScript absentEnv initQState [(0, .req .restore)] 1000).inProgress = false ∧
     (runScript absentEnv initQState [(0, .req .restore)] 1000).beginCount = 1) ∧
    ((runScript compliantEnv initQState [(0, .req .set)] 1000).cleanupCount = 1 ∧
     (runScript compliantEnv initQState [(0, .req .set)] 1000).inProgress = false) ∧
    ((runScript stubbornEnv initQState [(0, .req .set)] 2000).cleanupCount = 1 ∧
     (runScript stubbornEnv initQState [(0, .req .set)] 2000).inProgress = false) := by
  refine ⟨?_, by decide, by decide, by decide⟩
  intro env steps
  obtain ⟨h1, h2, -⟩ := inv_runQSteps env steps initQState inv_init
  cases hip : (runQSteps env steps initQState).inProgress
  · obtain ⟨ha, -⟩ := h2 hip
    omega
  · obtain ⟨ha, -⟩ := h1 hip
    omega

/- ===== C4: debounce coalescing ===== -/

/-- A burst of same-type requests at the given times. -/
def reqScript (ty : QOpType) (times : List Nat) : List (Nat × QAct) :=
  times.map (fun t => (t, QAct.req ty))

/-- The state between requests of a burst from the initial state: idle, with
the single pending debounce scheduled by the most recent request at time t
(the i-th timer created). -/
def debouncedState (ty : QOpType) (t i : Nat) : QState :=
  { initQState with
      now := t
      nextId := i + 1
      pendingDebounce := some ⟨i, t + 300, .debounceFire ty⟩ }

/-- The last request time of a burst. -/
def lastTime (t : Nat) : List Nat → Nat
  | [] => t
  | x :: xs => lastTime x xs

/-- Timers that are not coordinator dispatch callbacks. -/
def coordFree : QTask → Bool
  | .debounceFire _ => false
  | .requeueFire _ => false
  | _ => true

/-- No queued or pending timer can reach executeQualityOperation. -/
def NoCoordTimers (st : QState) : Prop :=
  (∀ tm ∈ st.timers, coordFree tm.task = true) ∧ st.pendingDebounce = none

lemma noCoord_addTimer {st : QState} (task : QTask) (time : Nat)
    (hc : coordFree task = true) (h : NoCoordTimers st) :
    NoCoordTimers (addTimer task time st) := by
  obtain ⟨h1, h2⟩ := h
  constructor
  · intro tm htm
    rcases List.mem_cons.mp htm with hx | hx
    · rw [hx]
      exact hc
    · exact h1 tm hx
  · exact h2

lemma noCoord_invoke {st : QState} (k : QCont) (h : NoCoordTimers st) :
    NoCoordTimers (invokeCont k st) := by
  cases k with
  | cleanup => exact h
  | nothing => exact h

/-- NoCoordTimers transport across updates of other fields. -/
lemma noCoord_update {st st' : QState}
    (htm : st'.timers = st.timers) (hpd : st'.pendingDebounce = st.pendingDebounce)
    (h : NoCoordTimers st) : NoCoordTimers st' := by
  obtain ⟨h1, h2⟩ := h
  exact ⟨fun tm hm => h1 tm (htm ▸ hm), hpd ▸ h2⟩

lemma coordFree_invoke {st : QState} (k : QCont) (h : NoCoordTimers st) :
    (invokeCont k st).beginCount = st.beginCount ∧ NoCoordTimers (invokeCont k st) := by
  cases k with
  | cleanup => exact ⟨rfl, noCoord_update rfl rfl h⟩
  | nothing => exact ⟨rfl, h⟩

lemma coordFree_click {env : QEnv} {st : QState} (target : String) (k : QCont)
    (h : NoCoordTimers st) :
    (clickQualitySetting env target k st).beginCount = st.beginCount ∧
      NoCoordTimers (clickQualitySetting env target k st) := by
  unfold clickQualitySetting
  dsimp only
  split
  · exact coordFree_invoke k (noCoord_update rfl rfl h)
  · split
    · exact ⟨rfl, noCoord_addTimer _ _ rfl (noCoord_update rfl rfl h)⟩
    · exact coordFree_invoke k (noCoord_update rfl rfl h)

lemma coordFree_setInternal {env : QEnv} {st : QState} (k : QCont) (h : NoCoordTimers st) :
    (setLowestQualityInternal env k st).beginCount = st.beginCount ∧
      NoCoordTimers (setLowestQualityInternal env k st) := by
  unfold setLowestQualityInternal forceLowestQuality
  split
  · split
    · exact ⟨rfl, noCoord_addTimer _ _ rfl h⟩
    · exact coordFree_invoke k h
  · exact ⟨rfl, noCoord_addTimer _ _ rfl h⟩

lemma coordFree_preferredInternal {env : QEnv} {st : QState} (k : QCont)
    (h : NoCoordTimers st) :
    (applyPreferredQualityInternal env k st).beginCount = st.beginCount ∧
      NoCoordTimers (applyPreferredQualityInternal env k st) := by
  unfold applyPreferredQualityInternal
  split
  · exact ⟨rfl, noCoord_addTimer _ _ rfl h⟩
  · exact ⟨rfl, noCoord_addTimer _ _ rfl h⟩

lemma coordFree_restoreInternal {env : QEnv} {st : QState} (attempts : Nat) (k : QCont)
    (h : NoCoordTimers st) :
    (restoreQualityInternal env attempts k st).beginCount = st.beginCount ∧
      NoCoordTimers (restoreQualityInternal env attempts k st) := by
  unfold restoreQualityInternal
  split
  · exact ⟨rfl, noCoord_addTimer _ _ rfl h⟩
  · split
    · exact coordFree_invoke k h
    · exact ⟨rfl, noCoord_addTimer _ _ rfl h⟩

lemma coordFree_forceVerify {env : QEnv} {st : QState} (k : QCont) (h : NoCoordTimers st) :
    (fireForceVerify env k st).beginCount = st.beginCount ∧
      NoCoordTimers (fireForceVerify env k st) := by
  unfold fireForceVerify
  dsimp only
  split
  · split
    · exact coordFree_click _ k (noCoord_update rfl rfl h)
    · exact coordFree_invoke k h
  · exact coordFree_invoke k (noCoord_update rfl rfl h)

lemma coordFree_restoreLoaded {env : QEnv} {st : QState} (k : QCont) (h : NoCoordTimers st) :
    (fireRestoreLoaded env k st).beginCount = st.beginCount ∧
      NoCoordTimers (fireRestoreLoaded env k st) := by
  unfold fireRestoreLoaded
  dsimp only
  exact ⟨rfl, noCoord_addTimer _ _ rfl (noCoord_update rfl rfl h)⟩

lemma coordFree_preferredLoaded {env : QEnv} {st : QState} (k : QCont)
    (h : NoCoordTimers st) :
    (firePreferredLoaded env k st).beginCount = st.beginCount ∧
      NoCoordTimers (firePreferredLoaded env k st) := by
  unfold firePreferredLoaded
  dsimp only
  split
  · exact coordFree_invoke k h
  · exact ⟨rfl, noCoord_addTimer _ _ rfl h⟩

lemma coordFree_restoreVerify {env : QEnv} {st : QState} (target uiText : String)
    (k : QCont) (h : NoCoordTimers st) :
    (fireRestoreVerify env target uiText k st).beginCount = st.beginCount ∧
      NoCoordTimers (fireRestoreVerify env target uiText k st) := by
  unfold fireRestoreVerify
  dsimp only
  split
  · exact coordFree_click _ k h
  · exact coordFree_invoke k h

lemma coordFree_preferredVerify {env : QEnv} {st : QState} (target uiText : String)
    (k : QCont) (h : NoCoordTimers st) :
    (firePreferredVerify env target uiText k st).beginCount = st.beginCount ∧
      NoCoordTimers (firePreferredVerify env target uiText k st) := by
  unfold firePreferredVerify
  dsimp only
  split
  · exact coordFree_click _ k h
  · exact coordFree_invoke k h

lemma coordFree_clickStep {env : QEnv} {st : QState} (stage sid : Nat) (target : String)
    (k : QCont) (h : NoCoordTimers st) :
    (fireClickStep env stage sid target k st).beginCount = st.beginCount ∧
      NoCoordTimers (fireClickStep env stage sid target k st) := by
  unfold fireClickStep
  split
  · split
    · exact coordFree_invoke k (noCoord_update rfl rfl h)
    · split
      · exact ⟨rfl, noCoord_addTimer _ _ rfl (noCoord_update rfl rfl h)⟩
      · exact coordFree_invoke k (noCoord_update rfl rfl h)
  · split
    · split
      · exact coordFree_invoke k (noCoord_update rfl rfl h)
      · dsimp only
        split
        · exact ⟨rfl, noCoord_addTimer _ _ rfl (noCoord_update rfl rfl h)⟩
        · split
          · split
            · exact ⟨rfl, noCoord_addTimer _ _ rfl (noCoord_update rfl rfl h)⟩
            · exact ⟨rfl, noCoord_addTimer _ _ rfl h⟩
          · split
            · split
              · exact ⟨rfl, noCoord_addTimer _ _ rfl (noCoord_update rfl rfl h)⟩
              · exact ⟨rfl, noCoord_addTimer _ _ rfl h⟩
            · exact ⟨rfl, noCoord_addTimer _ _ rfl h⟩
    · split
      · split
        · exact coordFree_invoke k (noCoord_update rfl rfl h)
        · exact ⟨rfl, noCoord_addTimer _ _ rfl (noCoord_update rfl rfl h)⟩
      · exact coordFree_invoke k (noCoord_update rfl rfl h)

/-- Firing any non-coordinator timer adds only non-coordinator timers, keeps
the debounce slot empty, and performs no coordinator begin. -/
lemma coordFree_fire {env : QEnv} {st : QState} (task : QTask)
    (hb : coordFree task = true) (h : NoCoordTimers st) :
    (fireTimer env task st).beginCount = st.beginCount ∧
      NoCoordTimers (fireTimer env task st) := by
  cases task with
  | debounceFire ty => cases hb
  | requeueFire ty => cases hb
  | setRetry k => exact coordFree_setInternal k h
  | preferredRetry k => exact coordFree_preferredInternal k h
  | restoreRetry attempts k => exact coordFree_restoreInternal attempts k h
  | restoreLoaded k => exact coordFree_restoreLoaded k h
  | preferredLoaded k => exact coordFree_preferredLoaded k h
  | forceVerify k => exact coordFree_forceVerify k h
  | restoreVerify target uiText k => exact coordFree_restoreVerify target uiText k h
  | preferredVerify target uiText k => exact coordFree_preferredVerify target uiText k h
  | clickStep stage sid target k => exact coordFree_clickStep stage sid target k h

/-- Helper: the minimum-selection fold only returns a candidate or the seed. -/
lemma foldl_min_mem :
    ∀ (l : List QTimer) (acc : Option QTimer) (y : QTimer),
      l.foldl
        (fun acc tm =>
          match acc with
          | none => some tm
          | some b => if timerBefore tm b then some tm else some b)
        acc = some y →
      y ∈ l ∨ acc = some y := by
  intro l
  induction l with
  | nil =>
    intro acc y h
    exact Or.inr h
  | cons x xs ih =>
    intro acc y h
    rw [List.foldl_cons] at h
    rcases ih _ y h with hx | hx
    · exact Or.inl (List.mem_cons_of_mem _ hx)
    · cases acc with
      | none =>
        simp only [Option.some.injEq] at hx
        exact Or.inl (by rw [← hx]; exact List.mem_cons_self x xs)
      | some b =>
        by_cases hc : timerBefore x b = true
        · simp only [hc, if_true, Option.some.injEq] at hx
          exact Or.inl (by rw [← hx]; exact List.mem_cons_self x xs)
        · simp only [hc] at hx
          exact Or.inr hx

/-- A timer returned by pickDue comes from the debounce slot or the queue. -/
lemma pickDue_mem {st : QState} {t : Nat} {tm : QTimer} (h : pickDue st t = some tm) :
    tm ∈ ((match st.pendingDebounce with
      | some x => [x]
      | none => ([] : List QTimer)) ++ st.timers) := by
  unfold pickDue at h
  rcases foldl_min_mem _ none tm h with hx | hx
  · exact List.mem_of_mem_filter hx
  · cases hx

/-- Advancing over a queue with no coordinator timers never begins an
operation. -/
lemma coordFree_advance (env : QEnv) :
    ∀ (fuel : Nat) (st : QState) (t : Nat), NoCoordTimers st →
      (advanceTo env fuel st t).beginCount = st.beginCount ∧
        NoCoordTimers (advanceTo env fuel st t) := by
  intro fuel
  induction fuel with
  | zero =>
    intro st t h
    exact ⟨rfl, h⟩
  | succ n ih =>
    intro st t h
    rw [advanceTo]
    cases hp : pickDue st t with
    | none => exact ⟨rfl, h⟩
    | some tm =>
      dsimp only
      have hmem := pickDue_mem hp
      rw [h.2] at hmem
      simp only [List.nil_append] at hmem
      have hcf := h.1 tm hmem
      have hrem : removeTimer st tm =
          { st with timers := st.timers.filter (fun x => x.id != tm.id) } := by
        unfold removeTimer
        rw [h.2]
      rw [hrem]
      dsimp only
      have hst' : NoCoordTimers
          ({ { st with timers := st.timers.filter (fun x => x.id != tm.id) } with
              now := tm.time } : QState) := by
        refine ⟨?_, h.2⟩
        intro x hx
        exact h.1 x (List.mem_of_mem_filter hx)
      obtain ⟨hb, hnc⟩ := @coordFree_fire env _ tm.task hcf hst'
      obtain ⟨hb2, hnc2⟩ := ih _ t hnc
      exact ⟨by rw [hb2, hb], hnc2⟩

/-- Dispatching from an idle state with a coordinator-free queue performs
exactly one begin and leaves a coordinator-free queue. -/
lemma execute_fresh {env : QEnv} {ty : QOpType} {st : QState}
    (hip : st.inProgress = false) (h : NoCoordTimers st) :
    (executeQualityOperation env ty st).beginCount = st.beginCount + 1 ∧
      NoCoordTimers (executeQualityOperation env ty st) := by
  unfold executeQualityOperation
  rw [hip]
  simp only [Bool.false_eq_true, if_false]
  cases ty with
  | set =>
    dsimp only
    exact @coordFree_setInternal env _ .cleanup (noCoord_update rfl rfl h)
  | restore =>
    dsimp only
    exact @coordFree_restoreInternal env _ 3 .cleanup (noCoord_update rfl rfl h)
  | preferred =>
    dsimp only
    exact @coordFree_preferredInternal env _ .cleanup (noCoord_update rfl rfl h)

/-- Flushing the debounce of the last request of a burst fires the dispatch
exactly once. -/
lemma flush_begin (env : QEnv) (ty : QOpType) (t i : Nat) :
    (advanceTo env 50 (debouncedState ty t i) (t + 300)).beginCount = 1 := by
  have key : ∀ (s : QState), s.inProgress = false → s.beginCount = 0 →
      s.timers = [] → s.pendingDebounce = none →
      (advanceTo env 49 (fireTimer env (QTask.debounceFire ty) s) (t + 300)).beginCount
        = 1 := by
    intro s hip hb ht hpd
    have hnc : NoCoordTimers s := by
      refine ⟨?_, hpd⟩
      intro tm htm
      rw [ht] at htm
      cases htm
    obtain ⟨h1, h2⟩ := @execute_fresh env ty s hip hnc
    obtain ⟨h3, -⟩ := coordFree_advance env 49 _ (t + 300) h2
    show (advanceTo env 49 (executeQualityOperation env ty s) (t + 300)).beginCount = 1
    rw [h3, h1, hb]
  have hpick : pickDue (debouncedState ty t i) (t + 300) =
      some ⟨i, t + 300, .debounceFire ty⟩ := by
    simp [pickDue, debouncedState, initQState]
  have hrem : removeTimer (debouncedState ty t i) ⟨i, t + 300, .debounceFire ty⟩ =
      { debouncedState ty t i with pendingDebounce := none } := by
    simp [removeTimer, debouncedState, initQState]
  rw [show (50 : Nat) = 49 + 1 from rfl, advanceTo, hpick]
  dsimp only
  rw [hrem]
  exact key _ rfl rfl rfl rfl

/-- Between two requests of a rapid burst no timer comes due. -/
lemma burst_no_due (ty : QOpType) {t i t' : Nat} (h : t' < t + 300) :
    pickDue (debouncedState ty t i) t' = none := by
  have : ¬(t + 300 ≤ t') := by omega
  simp [pickDue, debouncedState, initQState, this]

lemma advance_of_none {env : QEnv} {st : QState} {t : Nat} (fuel : Nat)
    (h : pickDue st t = none) : advanceTo env fuel st t = st := by
  cases fuel with
  | zero => rfl
  | succ n =>
    rw [advanceTo, h]

/-- The coalescing loop: each further same-type request inside the window
just replaces the pending debounce, and the final flush executes once. -/
lemma coalesce_loop (env : QEnv) (ty : QOpType) :
    ∀ (ts : List Nat) (t i : Nat),
      List.Chain' (fun a b => a < b ∧ b < a + 300) (t :: ts) →
      (runScriptGo env (lastTime t ts + 300) (debouncedState ty t i)
        (reqScript ty ts)).beginCount = 1 := by
  intro ts
  induction ts with
  | nil =>
    intro t i _
    exact flush_begin env ty t i
  | cons t' rest ih =>
    intro t i hch
    rw [List.chain'_cons] at hch
    obtain ⟨⟨-, h2⟩, hch'⟩ := hch
    show (runScriptGo env (lastTime t' rest + 300)
      (applyQAct env (.req ty)
        { (advanceTo env 50 (debouncedState ty t i) t') with now := t' })
      (reqScript ty rest)).beginCount = 1
    rw [advance_of_none 50 (burst_no_due ty h2)]
    have hstep : applyQAct env (.req ty) { (debouncedState ty t i) with now := t' } =
        debouncedState ty t' (i + 1) := rfl
    rw [hstep]
    exact ih t' (i + 1) hch'

/-- Claim C4: for a burst of same-type requests whose consecutive gaps are all
inside the 300 ms debounce window, exactly one coordinator execution occurs
once the window after the last request elapses — each request first cancels
the previously scheduled debounce timer (the pending slot is either cleared
or holds only the newly scheduled callback), and a request whose type equals
the type currently in flight is dropped after that cancellation as an
idempotent no-op. -/
theorem debounce_coalesce_spec (env : QEnv) (ty : QOpType) (t : Nat) (ts : List Nat)
    (hch : List.Chain' (fun a b => a < b ∧ b < a + 300) (t :: ts)) :
    (runScript env initQState (reqScript ty (t :: ts)) (lastTime t ts + 300)).beginCount
      = 1 ∧
    (∀ (st : QState) (d : Nat) (ty' : QOpType),
      (requestQualityOperation d ty' st).pendingDebounce = none ∨
      (requestQualityOperation d ty' st).pendingDebounce =
        some ⟨st.nextId, st.now + d, .debounceFire ty'⟩) ∧
    (∀ (st : QState) (d : Nat) (ty' : QOpType),
      st.inProgress = true → st.lastType = some ty' →
      requestQualityOperation d ty' st = { st with pendingDebounce := none }) := by
  refine ⟨?_, ?_, ?_⟩
  · show (runScriptGo env (lastTime t ts + 300)
      (applyQAct env (.req ty)
        { (advanceTo env 50 initQState t) with now := t }) (reqScript ty ts)).beginCount = 1
    have hnone : pickDue initQState t = none := rfl
    rw [advance_of_none 50 hnone]
    have hstep : applyQAct env (.req ty) { initQState with now := t } =
        debouncedState ty t 0 := rfl
    rw [hstep]
    exact coalesce_loop env ty ts t 0 hch
  · intro st d ty'
    unfold requestQualityOperation
    dsimp only
    split
    · exact Or.inl rfl
    · exact Or.inr rfl
  · intro st d ty' hip hty
    unfold requestQualityOperation
    dsimp only
    rw [hip, hty]
    have hbe : (ty' == ty') = true := by cases ty' <;> rfl
    simp [hbe]

/-- Witness for claim C4: three set requests at 0, 100, and 250 ms coalesce into one
execution, flushed at 550 ms. -/
theorem debounce_coalesce_spec_witness :
    List.Chain' (fun a b => a < b ∧ b < a + 300) [0, 100, 250] ∧
    (runScript stubbornEnv initQState (reqScript .set [0, 100, 250]) 550).beginCount = 1 :=
  ⟨by simp [List.chain'_cons],
   (debounce_coalesce_spec stubbornEnv .set 0 [100, 250] (by simp [List.chain'_cons])).1⟩

/- ===== C6 amended: Fallback-UI at most once per flag reset ===== -/

/-- The Fallback-UI budget: entries made so far plus one more allowed while
the idempotency flag is clear. -/
def fallbackBudget (st : QState) : Nat :=
  st.setFallbackCount + (if st.flag then 0 else 1)

lemma budget_invoke (k : QCont) (st : QState) :
    fallbackBudget (invokeCont k st) = fallbackBudget st := by
  cases k <;> rfl

lemma budget_click (env : QEnv) (target : String) (k : QCont) (st : QState) :
    fallbackBudget (clickQualitySetting env target k st) = fallbackBudget st := by
  unfold clickQualitySetting
  dsimp only
  split
  · exact budget_invoke _ _
  · split
    · rfl
    · exact budget_invoke _ _

lemma budget_setInternal (env : QEnv) (k : QCont) (st : QState) :
    fallbackBudget (setLowestQualityInternal env k st) = fallbackBudget st := by
  unfold setLowestQualityInternal forceLowestQuality
  split
  · split
    · rfl
    · exact budget_invoke _ _
  · rfl

lemma budget_restoreInternal (env : QEnv) (attempts : Nat) (k : QCont) (st : QState) :
    fallbackBudget (restoreQualityInternal env attempts k st) = fallbackBudget st := by
  unfold restoreQualityInternal
  split
  · rfl
  · split
    · exact budget_invoke _ _
    · rfl

lemma budget_preferredInternal (env : QEnv) (k : QCont) (st : QState) :
    fallbackBudget (applyPreferredQualityInternal env k st) = fallbackBudget st := by
  unfold applyPreferredQualityInternal
  split <;> rfl

lemma budget_request (d : Nat) (ty : QOpType) (st : QState) :
    fallbackBudget (requestQualityOperation d ty st) = fallbackBudget st := by
  unfold requestQualityOperation
  dsimp only
  split <;> rfl

lemma budget_execute (env : QEnv) (ty : QOpType) (st : QState) :
    fallbackBudget (executeQualityOperation env ty st) = fallbackBudget st := by
  unfold executeQualityOperation
  split
  · rfl
  · cases ty with
    | set => exact budget_setInternal env .cleanup _
    | restore => exact budget_restoreInternal env 3 .cleanup _
    | preferred => exact budget_preferredInternal env .cleanup _

lemma budget_forceVerify (env : QEnv) (k : QCont) (st : QState) :
    fallbackBudget (fireForceVerify env k st) ≤ fallbackBudget st := by
  unfold fireForceVerify
  dsimp only
  split
  · split
    · rw [budget_click]
      rename_i hfl
      have hf : st.flag = false := by
        cases hx : st.flag
        · rfl
        · rw [hx] at hfl
          cases hfl
      simp [fallbackBudget, hf]
    · exact le_of_eq (budget_invoke _ _)
  · refine le_trans (le_of_eq (budget_invoke _ _)) ?_
    unfold fallbackBudget
    cases hf : st.flag <;> simp

lemma budget_clickStep (env : QEnv) (stage sid : Nat) (target : String) (k : QCont)
    (st : QState) :
    fallbackBudget (fireClickStep env stage sid target k st) = fallbackBudget st := by
  unfold fireClickStep
  split
  · split
    · exact budget_invoke _ _
    · split
      · rfl
      · exact budget_invoke _ _
  · split
    · split
      · exact budget_invoke _ _
      · dsimp only
        split
        · rfl
        · split
          · split <;> rfl
          · split
            · split <;> rfl
            · rfl
    · split
      · split
        · exact budget_invoke _ _
        · rfl
      · exact budget_invoke _ _

lemma budget_fire (env : QEnv) (task : QTask) (st : QState) :
    fallbackBudget (fireTimer env task st) ≤ fallbackBudget st := by
  cases task with
  | debounceFire ty => exact le_of_eq (budget_execute env ty st)
  | requeueFire ty => exact le_of_eq (budget_request 100 ty st)
  | setRetry k => exact le_of_eq (budget_setInternal env k st)
  | preferredRetry k => exact le_of_eq (budget_preferredInternal env k st)
  | restoreRetry attempts k => exact le_of_eq (budget_restoreInternal env attempts k st)
  | restoreLoaded k =>
    show fallbackBudget (fireRestoreLoaded env k st) ≤ fallbackBudget st
    unfold fireRestoreLoaded
    dsimp only
    exact le_refl _
  | preferredLoaded k =>
    show fallbackBudget (firePreferredLoaded env k st) ≤ fallbackBudget st
    unfold firePreferredLoaded
    dsimp only
    split
    · exact le_of_eq (budget_invoke k st)
    · exact le_refl _
  | forceVerify k => exact budget_forceVerify env k st
  | restoreVerify target uiText k =>
    show fallbackBudget (fireRestoreVerify env target uiText k st) ≤ fallbackBudget st
    unfold fireRestoreVerify
    dsimp only
    split
    · exact le_of_eq (budget_click env uiText k st)
    · exact le_of_eq (budget_invoke k st)
  | preferredVerify target uiText k =>
    show fallbackBudget (firePreferredVerify env target uiText k st) ≤ fallbackBudget st
    unfold firePreferredVerify
    dsimp only
    split
    · exact le_of_eq (budget_click env uiText k st)
    · exact le_of_eq (budget_invoke k st)
  | clickStep stage sid target k => exact le_of_eq (budget_clickStep env stage sid target k st)

lemma budget_check (env : QEnv) (st : QState) :
    fallbackBudget (checkAndEnforceQuality env st) ≤ fallbackBudget st := by
  unfold checkAndEnforceQuality forceLowestQuality
  dsimp only
  split
  · exact le_refl _
  · split
    · exact le_refl _
    · split
      · split
        · exact le_refl _
        · exact le_of_eq (budget_invoke _ _)
      · exact le_refl _

lemma budget_step (env : QEnv) (st : QState) (s : QStep)
    (h1 : s ≠ .ext .navigate) (h2 : s ≠ .ext .enable) (h3 : s ≠ .ext .disable) :
    fallbackBudget (applyQStep env s st) ≤ fallbackBudget st := by
  cases s with
  | ext a =>
    cases a with
    | req ty => exact le_of_eq (budget_request 300 ty st)
    | tick => exact budget_check env st
    | navigate => exact absurd rfl h1
    | enable => exact absurd rfl h2
    | disable => exact absurd rfl h3
  | fireDeb =>
    unfold applyQStep
    dsimp only
    cases hd : st.pendingDebounce with
    | none => exact le_refl _
    | some tm =>
      dsimp only
      exact budget_fire env tm.task _
  | fire i =>
    unfold applyQStep
    dsimp only
    cases hg : st.timers.get? i with
    | none => exact le_refl _
    | some tm =>
      dsimp only
      exact budget_fire env tm.task _

lemma budget_run (env : QEnv) :
    ∀ (steps : List QStep) (st : QState),
      (∀ s ∈ steps, s ≠ QStep.ext .navigate ∧ s ≠ QStep.ext .enable ∧
        s ≠ QStep.ext .disable) →
      fallbackBudget (runQSteps env steps st) ≤ fallbackBudget st := by
  intro steps
  induction steps with
  | nil =>
    intro st _
    exact le_refl _
  | cons s rest ih =>
    intro st h
    obtain ⟨hs1, hs2, hs3⟩ := h s (List.mem_cons_self s rest)
    refine le_trans (ih _ (fun x hx => h x (List.mem_cons_of_mem s hx))) ?_
    exact budget_step env st s hs1 hs2 hs3

/-- Claim C6 as amended: between flag resets the Fallback-UI runs at most once: along
any interleaving containing no navigation, enable, or disable action, the
Fallback-UI entry count grows by at most one from a clear-flag state and not
at all from a set-flag state; a verification with the flag set never enters
the Fallback-UI; a verification that reads an audio tier only sets the flag
and completes; and the flag is reset not only by navigation but also by the
enable and disable transitions (which is what lets the sequence run again on
the same video, as the C6 counterexample above exhibits). -/
theorem fallback_once_amended (env : QEnv) (steps : List QStep) (st : QState)
    (h : ∀ s ∈ steps, s ≠ QStep.ext .navigate ∧ s ≠ QStep.ext .enable ∧
      s ≠ QStep.ext .disable) :
    (runQSteps env steps st).setFallbackCount ≤
      st.setFallbackCount + (if st.flag then 0 else 1) ∧
    (∀ (e : QEnv) (s : QState) (k : QCont),
      (fireForceVerify e k { s with flag := true }).setFallbackCount
        = s.setFallbackCount) ∧
    (∀ (e : QEnv) (s : QState) (k : QCont),
      fireForceVerify { e with playbackQuality := fun _ => "tiny" } k s =
        invokeCont k { s with flag := true }) ∧
    (∀ s : QState, (navigateStep s).flag = false) ∧
    (∀ (e : QEnv) (s : QState), (enableAudioModeStep e s).flag = false) ∧
    (∀ s : QState, (disableAudioModeStep s).flag = false) := by
  refine ⟨?_, ?_, ?_, fun s => rfl, ?_, fun s => rfl⟩
  · exact le_trans (Nat.le_add_right _ _) (budget_run env steps st h)
  · intro e s k
    unfold fireForceVerify
    dsimp only
    split
    · cases k <;> rfl
    · cases k <;> rfl
  · intro e s k
    rfl
  · intro e s
    unfold enableAudioModeStep
    dsimp only
    split
    · split <;> rfl
    · rfl

/-- Witness for claim C6 as amended: the empty interleaving from the initial state. -/
theorem fallback_once_amended_witness :
    (runQSteps stubbornEnv [] initQState).setFallbackCount ≤
      initQState.setFallbackCount + (if initQState.flag then 0 else 1) :=
  (fallback_once_amended stubbornEnv [] initQState
    (fun s hs => absurd hs (List.not_mem_nil s))).1
